import Mathlib

/-!
# Verification of the content & field normalization engine

A shallow embedding, in Lean 4, of the field-resolution / formatting /
validation pipeline (`src/lib/field-resolver.ts`, `src/lib/value-formatter.ts`)
and of the Document→Markup (ADF→Markdown) converter bundled with the field
resolver, together with theorems settling the specification claims about them.

Conventions of the embedding:
* JavaScript `Map` objects are modelled as association lists in insertion
  order; `Map.set` replaces an existing binding in place, else appends.
* JavaScript runtime values (`unknown`) are modelled by the `JSValue`
  inductive.  Numbers are modelled as integers (the claims under study never
  depend on non-integral numerics), and `NaN` outcomes are modelled as
  `Option.none` of the relevant coercion.
* Asynchronous calls through the external Jira client are modelled by passing
  an explicit provider function `String → Except String CreateMeta` and by
  threading the module-level metadata cache in and out of each operation.
  A returned `Bool` records whether the external provider was invoked.
* Thrown exceptions are modelled with `Except`.
-/

namespace AgentTools

/-! ## JavaScript value model -/

/-- Model of a JavaScript runtime value (`unknown` in the TypeScript source).
Numeric values are modelled as integers. -/
inductive JSValue where
  | null
  | bool (b : Bool)
  | num (n : Int)
  | str (s : String)
  | arr (elems : List JSValue)
  | obj (props : List (String × JSValue))
deriving Repr

/-- JavaScript truthiness of a value. -/
def jsTruthy : JSValue → Bool
  | .null => false
  | .bool b => b
  | .num n => n != 0
  | .str s => s != ""
  | .arr _ => true
  | .obj _ => true

mutual
/-- JavaScript `String(v)` conversion (template-literal stringification). -/
def jsToString : JSValue → String
  | .null => "null"
  | .bool b => if b then "true" else "false"
  | .num n => toString n
  | .str s => s
  | .arr elems => jsArrToString elems
  | .obj _ => "[object Object]"

/-- `Array.prototype.toString`: elements joined by a comma, with `null`
elements rendered as the empty string. -/
def jsArrToString : List JSValue → String
  | [] => ""
  | [JSValue.null] => ""
  | [x] => jsToString x
  | JSValue.null :: xs => "," ++ jsArrToString xs
  | x :: xs => jsToString x ++ "," ++ jsArrToString xs
end

/-- `Map.set` semantics on an association list: replace the existing binding
in place, else append at the end. -/
def jsMapSet {α : Type} : List (String × α) → String → α → List (String × α)
  | [], k, v => [(k, v)]
  | (k0, v0) :: rest, k, v =>
      if k0 = k then (k0, v) :: rest else (k0, v0) :: jsMapSet rest k v

/-- Truthy string fallback: `a || b` where `a` is an optional string. -/
def strOr (a : Option String) (b : String) : String :=
  match a with
  | some s => if s != "" then s else b
  | none => b

/-- Truthy string fallback: `a || b` for plain strings. -/
def strOrS (a b : String) : String :=
  if a != "" then a else b

/-- Truthiness of an optional string property. -/
def optStrTruthy : Option String → Bool
  | some s => s != ""
  | none => false

/-- Boolean prefix test on character lists. -/
def charsPrefix : List Char → List Char → Bool
  | [], _ => true
  | _ :: _, [] => false
  | a :: as, b :: bs => a == b && charsPrefix as bs

/-- Boolean contiguous-substring test on character lists. -/
def charsContain (s pat : List Char) : Bool :=
  charsPrefix pat s ||
    (match s with
     | [] => false
     | _ :: rest => charsContain rest pat)

/-- `String.prototype.startsWith`. -/
def strStarts (s pre : String) : Bool :=
  charsPrefix pre.toList s.toList

/-- JavaScript `toLowerCase`, modelled per character (exact on the Basic
Latin range used by this code base). -/
def jsToLower (s : String) : String :=
  String.mk (s.toList.map Char.toLower)

/-- JavaScript `toUpperCase`, modelled per character. -/
def jsToUpper (s : String) : String :=
  String.mk (s.toList.map Char.toUpper)

/-- ASCII whitespace (the JS `trim` white-space set restricted to ASCII). -/
def charWS (c : Char) : Bool :=
  c = ' ' || c = '\t' || c = '\n' || c = '\r' || c = '\x0b' || c = '\x0c'

/-- JavaScript `String.prototype.trim`. -/
def jsTrim (s : String) : String :=
  String.mk (((s.toList.dropWhile charWS).reverse.dropWhile charWS).reverse)

/-- Split on a single-character separator (`String.prototype.split`). -/
def splitOnCharAux (c : Char) : List Char → List Char → List String
  | [], acc => [String.mk acc.reverse]
  | x :: xs, acc =>
    if x = c then String.mk acc.reverse :: splitOnCharAux c xs []
    else splitOnCharAux c xs (x :: acc)

/-- Split a string on a single-character separator. -/
def splitOnChar (c : Char) (s : String) : List String :=
  splitOnCharAux c s.toList []

/-- Decimal value of a digit string. -/
def digitsToNat (l : List Char) : Nat :=
  l.foldl (fun acc c => 10 * acc + (c.toNat - 48)) 0

/-- Parse a non-empty all-digit string. -/
def parseDigits (l : List Char) : Option Nat :=
  if l ≠ [] && l.all Char.isDigit then some (digitsToNat l) else none

/-- JavaScript `Number(string)` coercion, modelled for (signed) decimal
integer literals; the empty/whitespace-only string coerces to `0`; every
other string is `NaN`, modelled as `none`. -/
def jsParseNumber (s : String) : Option Int :=
  let t := jsTrim s
  if t = "" then some 0
  else match t.toList with
    | '-' :: rest => (parseDigits rest).map (fun n => -(n : Int))
    | '+' :: rest => (parseDigits rest).map (fun n => (n : Int))
    | l => (parseDigits l).map (fun n => (n : Int))

/-- JavaScript `Number(v)` coercion (`none` models `NaN`). -/
def jsNumber : JSValue → Option Int
  | .num n => some n
  | .bool b => some (if b then 1 else 0)
  | .null => some 0
  | .str s => jsParseNumber s
  | .arr elems => jsParseNumber (jsToString (.arr elems))
  | .obj props => jsParseNumber (jsToString (.obj props))

/-! ## Field resolver data model (`field-resolver.ts`) -/

/-- One legal choice of an enumerated field: an id, a display name and
optionally a distinct value token. -/
structure AllowedValue where
  id : String
  name : String
  value : Option String := none
deriving Repr, DecidableEq

/-- The declared schema of a field (type, item type for arrays, and the
legacy custom-type identifier). -/
structure FieldSchema where
  type : String
  items : Option String := none
  custom : Option String := none
deriving Repr, DecidableEq

/-- Field metadata as served by the create-meta endpoint. -/
structure JiraFieldMeta where
  required : Bool
  name : String
  key : String
  schema : FieldSchema
  allowedValues : Option (List AllowedValue) := none
  hasDefaultValue : Option Bool := none
deriving Repr, DecidableEq

/-- Resolved field with metadata. -/
structure ResolvedField where
  originalName : String
  key : String
  displayName : String
  type : String
  isCustom : Bool
  metadata : JiraFieldMeta
deriving Repr, DecidableEq

/-- Result of a field resolution attempt. -/
structure FieldResolutionResult where
  success : Bool
  resolved : Option ResolvedField := none
  error : Option String := none
  suggestions : Option (List String) := none
deriving Repr, DecidableEq

/-! ## Levenshtein distance (`levenshteinDistance`)

The source fills a `(b.length + 1) × (a.length + 1)` matrix row by row;
`matrix[i][j]` is the edit distance between the first `j` characters of `a`
and the first `i` characters of `b`.  The embedding computes the same matrix
row by row: `levNextCells` fills the cells of row `i` (columns `1..a.length`)
from row `i-1`, and `levRows` iterates rows over the characters of `b`. -/

/-- Fill the cells of one matrix row after the leading border cell.
`diag`, `pj` walk the previous row (`matrix[i-1][j-1]`, `matrix[i-1][j]`);
`left` is the cell just written (`matrix[i][j-1]`). -/
def levNextCells (c : Char) : List Char → List Nat → Nat → List Nat
  | aj :: as, diag :: pj :: prest, left =>
      let cur := if c = aj then diag
        else Nat.min (Nat.min (diag + 1) (left + 1)) (pj + 1)
      cur :: levNextCells c as (pj :: prest) cur
  | _, _, _ => []

/-- Iterate the rows of the matrix over the characters of `b`; returns the
final row. -/
def levRows (a : List Char) : List Char → List Nat → Nat → List Nat
  | [], prev, _ => prev
  | c :: bs, prev, i =>
      levRows a bs ((i + 1) :: levNextCells c a prev (i + 1)) (i + 1)

/-- Calculate Levenshtein distance between two strings
(`matrix[b.length][a.length]`). -/
def levenshteinDistance (a b : String) : Nat :=
  (levRows a.toList b.toList (List.range (a.length + 1)) 0).getLastD 0

/-! ## Field name suggestions (`findSimilarFieldNames`) -/

/-- Find similar field names for suggestions.  JavaScript's stable
`Array.prototype.sort` under the comparator `(a, b) => a.distance - b.distance`
is modelled by the stable `List.insertionSort` on the distance component. -/
def findSimilarFieldNames (name : String) (fields : List (String × JiraFieldMeta))
    (maxSuggestions : Nat := 3) : List String :=
  let nameLower := jsToLower name
  let candidates := fields.filterMap (fun f =>
    let fieldNameLower := jsToLower f.2.name
    let distance := levenshteinDistance nameLower fieldNameLower
    -- Only suggest if reasonably close (within 50% of target length)
    if distance ≤ Nat.max 3 ((name.length + 1) / 2) then some (f.2.name, distance)
    else none)
  (((candidates.insertionSort (fun x y => x.2 ≤ y.2)).take maxSuggestions).map Prod.fst)

/-! ## Field schema cache (`fetchFieldMetadata`, `clearFieldMetadataCache`) -/

/-- Create-meta issue type entry: its name and its field table
(in insertion order, as `Object.entries` enumerates it). -/
structure IssueTypeMeta where
  name : String
  fields : List (String × JiraFieldMeta)
deriving Repr

/-- Create-meta project entry. -/
structure ProjectMeta where
  key : String
  issuetypes : List IssueTypeMeta
deriving Repr

/-- Create-meta response of the external schema provider. -/
structure CreateMeta where
  projects : List ProjectMeta
deriving Repr

/-- A per-(project, issue type) field map, keyed by internal identifier. -/
abbrev FieldMap := List (String × JiraFieldMeta)

/-- The module-level metadata cache. -/
abbrev MetadataCache := List (String × FieldMap)

/-- Generate cache key for project + issue type. -/
def getCacheKey (projectKey issueType : String) : String :=
  projectKey ++ ":" ++ issueType

/-- Fetch and cache field metadata for a project and issue type.  The external
client is the provider function; the cache is threaded explicitly; the third
component records whether the provider was invoked. -/
def fetchFieldMetadata (getCreateMeta : String → Except String CreateMeta)
    (cache : MetadataCache) (projectKey issueType : String) :
    Except String FieldMap × MetadataCache × Bool :=
  let cacheKey := getCacheKey projectKey issueType
  -- Check cache first
  match cache.lookup cacheKey with
  | some cached => (.ok cached, cache, false)
  | none =>
    -- Fetch from API
    match getCreateMeta projectKey with
    | .error e => (.error e, cache, true)
    | .ok createMeta =>
      match createMeta.projects.find? (fun p => jsToUpper p.key = jsToUpper projectKey) with
      | none => (.error ("Project \x27" ++ projectKey ++ "\x27 not found"), cache, true)
      | some project =>
        match project.issuetypes.find? (fun it => jsToLower it.name = jsToLower issueType) with
        | none =>
          let availableTypes := String.intercalate ", " (project.issuetypes.map (fun it => it.name))
          (.error ("Issue type \x27" ++ issueType ++ "\x27 not found in project " ++ projectKey
              ++ ". Available types: " ++ availableTypes), cache, true)
        | some issueTypeMeta =>
          -- Build field map
          let fieldMap : FieldMap :=
            issueTypeMeta.fields.map (fun kv => (kv.1, { kv.2 with key := kv.1 }))
          -- Cache and return
          (.ok fieldMap, jsMapSet cache cacheKey fieldMap, true)

/-- Clear the field metadata cache. -/
def clearFieldMetadataCache (_cache : MetadataCache) : MetadataCache := []

/-! ## Field name resolution (`resolveFieldName`, `resolveFieldNames`) -/

/-- The fixed list of standard Jira field identifiers. -/
def standardJiraFields : List String :=
  ["summary", "description", "assignee", "reporter", "priority", "status",
   "labels", "components", "fixVersions", "versions", "issuetype", "project",
   "parent", "duedate", "environment", "resolution", "resolutiondate",
   "created", "updated"]

/-- Check if a field name looks like an internal field ID
(`/^customfield_\d+$/` or a standard field name). -/
def isInternalFieldId (name : String) : Bool :=
  (strStarts name "customfield_" && (name.toList.drop 12).length > 0
    && (name.toList.drop 12).all Char.isDigit)
  || standardJiraFields.contains name

/-- The placeholder metadata attached when an internal id is accepted without
a schema entry. -/
def unknownFieldMeta (fieldName : String) : JiraFieldMeta :=
  { required := false, name := fieldName, key := fieldName,
    schema := { type := "unknown" } }

/-- Resolve a field name to its internal ID.  The metadata cache is threaded
in and out. -/
def resolveFieldName (getCreateMeta : String → Except String CreateMeta)
    (cache : MetadataCache) (projectKey issueType fieldName : String) :
    FieldResolutionResult × MetadataCache :=
  -- If already an internal ID, return as-is (but still fetch metadata for type info)
  if isInternalFieldId fieldName then
    match fetchFieldMetadata getCreateMeta cache projectKey issueType with
    | (.ok fields, cache1, _) =>
      match fields.lookup fieldName with
      | some meta =>
        ({ success := true,
           resolved := some
             { originalName := fieldName
               key := fieldName
               displayName := meta.name
               type := meta.schema.type
               isCustom := strStarts fieldName "customfield_"
               metadata := meta } },
         cache1)
      | none =>
        -- Field ID not in createmeta - might still work
        ({ success := true,
           resolved := some
             { originalName := fieldName
               key := fieldName
               displayName := fieldName
               type := "unknown"
               isCustom := fieldName.startsWith "customfield_"
               metadata := unknownFieldMeta fieldName } },
         cache1)
    | (.error _, cache1, _) =>
      -- Fall through - use the ID as-is
      ({ success := true,
         resolved := some
           { originalName := fieldName
             key := fieldName
             displayName := fieldName
             type := "unknown"
             isCustom := fieldName.startsWith "customfield_"
             metadata := unknownFieldMeta fieldName } },
       cache1)
  else
    -- Fetch field metadata
    match fetchFieldMetadata getCreateMeta cache projectKey issueType with
    | (.error e, cache1, _) => ({ success := false, error := some e }, cache1)
    | (.ok fields, cache1, _) =>
      -- Search for matching field by name (case-insensitive)
      let fieldNameLower := jsToLower fieldName
      match fields.find? (fun kv => jsToLower kv.2.name = fieldNameLower) with
      | some kv =>
        ({ success := true,
           resolved := some
             { originalName := fieldName
               key := kv.1
               displayName := kv.2.name
               type := kv.2.schema.type
               isCustom := strStarts kv.1 "customfield_"
               metadata := kv.2 } },
         cache1)
      | none =>
        -- No exact match - provide suggestions
        let suggestions := findSimilarFieldNames fieldName fields
        ({ success := false,
           error := some ("Field \x27" ++ fieldName ++ "\x27 not found in project "
             ++ projectKey ++ " for issue type \x27" ++ issueType ++ "\x27"),
           suggestions := if suggestions.length > 0 then some suggestions else none },
         cache1)

/-- A per-name batch resolution error. -/
structure ResolutionError where
  name : String
  error : String
  suggestions : Option (List String) := none
deriving Repr, DecidableEq

/-- Loop body of `resolveFieldNames`: resolve each name in order, collecting
successes in the `resolved` map and failures in the `errors` list. -/
def resolveFieldNamesLoop (getCreateMeta : String → Except String CreateMeta)
    (projectKey issueType : String) :
    List String → List (String × ResolvedField) → List ResolutionError →
    MetadataCache →
    List (String × ResolvedField) × List ResolutionError × MetadataCache
  | [], resolved, errors, cache => (resolved, errors, cache)
  | name :: rest, resolved, errors, cache =>
    let r := resolveFieldName getCreateMeta cache projectKey issueType name
    match r.1.success, r.1.resolved with
    | true, some rf =>
        resolveFieldNamesLoop getCreateMeta projectKey issueType rest
          (jsMapSet resolved name rf) errors r.2
    | _, _ =>
        resolveFieldNamesLoop getCreateMeta projectKey issueType rest
          resolved
          (errors ++ [{ name := name, error := (r.1.error).getD "Unknown error",
                        suggestions := r.1.suggestions }])
          r.2

/-- Resolve multiple field names and return a map of original name to
resolved field plus per-name errors. -/
def resolveFieldNames (getCreateMeta : String → Except String CreateMeta)
    (cache : MetadataCache) (projectKey issueType : String)
    (fieldNames : List String) :
    List (String × ResolvedField) × List ResolutionError × MetadataCache :=
  resolveFieldNamesLoop getCreateMeta projectKey issueType fieldNames [] [] cache

/-! ## Field value validation (`validateFieldValue`, `validateFieldValues`) -/

/-- Result of field value validation. -/
structure ValueValidationResult where
  valid : Bool
  normalizedValue : Option JSValue := none
  error : Option String := none
  allowedValues : Option (List AllowedValue) := none
  suggestions : Option (List String) := none
deriving Repr

/-- Find similar values using Levenshtein distance
(`av.value || av.name` is the displayed candidate). -/
def findSimilarValues (value : String) (allowedValues : List AllowedValue)
    (maxSuggestions : Nat := 3) : List String :=
  let valueLower := jsToLower value
  let candidates := allowedValues.filterMap (fun av =>
    let displayValue := strOr av.value av.name
    let distance := levenshteinDistance valueLower (jsToLower displayValue)
    -- Only suggest if reasonably close
    if distance ≤ Nat.max 3 ((value.length + 1) / 2) then some (displayValue, distance)
    else none)
  (((candidates.insertionSort (fun x y => x.2 ≤ y.2)).take maxSuggestions).map Prod.fst)

/-- For object values (already formatted), extract the comparison string:
`String(objValue.value || objValue.name || objValue.id || '')`; other values
are stringified directly.  (Arrays have `typeof === 'object'` but carry none
of the three properties, so they unwrap to the empty string.) -/
def compareValueOf (value : JSValue) : String :=
  match value with
  | .obj props =>
    let pick := fun (k : String) =>
      match props.lookup k with
      | some v => if jsTruthy v then some v else none
      | none => none
    jsToString ((((pick "value").orElse (fun _ => pick "name")).orElse
      (fun _ => pick "id")).getD (.str ""))
  | .arr _ => ""
  | v => jsToString v

/-- The per-entry match test of `validateFieldValue`: case-insensitive on the
name and the (truthy) value token, exact string equality on the id. -/
def allowedValueMatches (compareLower compareValue : String) (av : AllowedValue) : Bool :=
  jsToLower av.name == compareLower
  || (match av.value with
      | some v => v != "" && jsToLower v == compareLower
      | none => false)
  || av.id == compareValue

/-- Check if a value is valid for a field and provide helpful error if not. -/
def validateFieldValue (field : ResolvedField) (value : JSValue) : ValueValidationResult :=
  match field.metadata.allowedValues with
  -- If no allowed values defined, assume any value is valid
  | none => { valid := true, normalizedValue := some value }
  | some allowedValues =>
    if allowedValues.length = 0 then { valid := true, normalizedValue := some value }
    else
      let compareValue := compareValueOf value
      let compareLower := jsToLower compareValue
      -- Check for exact match (case-insensitive)
      if allowedValues.any (allowedValueMatches compareLower compareValue) then
        { valid := true, normalizedValue := some value }
      else
        -- No match - provide helpful error with suggestions
        let suggestions := findSimilarValues compareValue allowedValues
        { valid := false
          error := some ("Invalid value \"" ++ compareValue ++ "\" for field \""
            ++ field.displayName ++ "\"")
          allowedValues := some allowedValues
          suggestions := if suggestions.length > 0 then some suggestions else none }

/-- Loop body of `validateFieldValues`: names without a resolved field skip
validation and pass through as valid. -/
def validateFieldValuesLoop (resolvedFields : List (String × ResolvedField)) :
    List (String × JSValue) → List (String × ValueValidationResult) → Bool →
    Bool × List (String × ValueValidationResult)
  | [], results, allValid => (allValid, results)
  | (name, value) :: rest, results, allValid =>
    match resolvedFields.lookup name with
    | none =>
      -- Field not resolved - skip validation
      validateFieldValuesLoop resolvedFields rest
        (jsMapSet results name { valid := true, normalizedValue := some value })
        allValid
    | some field =>
      let result := validateFieldValue field value
      validateFieldValuesLoop resolvedFields rest
        (jsMapSet results name result) (allValid && result.valid)

/-- Validate all field values and return validation results. -/
def validateFieldValues (resolvedFields : List (String × ResolvedField))
    (fieldPairs : List (String × JSValue)) :
    Bool × List (String × ValueValidationResult) :=
  validateFieldValuesLoop resolvedFields fieldPairs [] true

/-! ## Value formatting (`value-formatter.ts`) -/

/-- Result of value formatting. -/
structure FormattingResult where
  success : Bool
  formattedValue : Option JSValue := none
  originalValue : JSValue
  formatDescription : Option String := none
  error : Option String := none
deriving Repr

/-- Check if a value is already formatted as an object: a non-null object
carrying one of the recognized wrapper properties. -/
def isAlreadyFormatted (value : JSValue) : Bool :=
  match value with
  | .obj props =>
    (props.lookup "value").isSome || (props.lookup "name").isSome
    || (props.lookup "id").isSome || (props.lookup "accountId").isSome
    || (props.lookup "key").isSome
  | _ => false

/-- Check if a value is an array of formatted objects. -/
def isFormattedArray (value : JSValue) : Bool :=
  match value with
  | .arr elems => elems.length = 0 || elems.all isAlreadyFormatted
  | _ => false

/-- The detected wire shape for members of an array-typed field. -/
inductive AVFormat where
  | name
  | value
  | id
deriving Repr, DecidableEq

/-- Detect the format style for allowed values by sampling the first three
entries. -/
def detectAllowedValueFormat (allowedValues : Option (List AllowedValue)) : AVFormat :=
  match allowedValues with
  | none => .value -- Default fallback
  | some avs =>
    if avs.length = 0 then .value
    else
      let sample := avs.take 3
      -- Check if values primarily use 'name' (like components)
      let hasNameOnly := sample.any (fun av => av.name != "" && !(optStrTruthy av.value))
      if hasNameOnly then .name
      else
        -- Check if values primarily use 'value' (like options)
        let hasValue := sample.any (fun av => optStrTruthy av.value)
        if hasValue then .value
        else
          -- Check if we only have IDs
          let hasIdOnly := sample.all (fun av =>
            av.id != "" && av.name == "" && !(optStrTruthy av.value))
          if hasIdOnly then .id
          else
            -- Default to name if we have names but could not determine otherwise
            let hasName := sample.any (fun av => av.name != "")
            if hasName then .name else .value -- Ultimate fallback

/-- Find matching allowed value (returns the actual entry to use). -/
def findMatchingAllowedValue (input : String)
    (allowedValues : Option (List AllowedValue)) : Option AllowedValue :=
  match allowedValues with
  | none => none
  | some avs =>
    if avs.length = 0 then none
    else
      let inputLower := jsToLower input
      avs.find? (fun av =>
        (av.name != "" && jsToLower av.name == inputLower)
        || (match av.value with
            | some v => v != "" && jsToLower v == inputLower
            | none => false)
        || av.id == input)

/-- Format a value for an option/select field. -/
def formatOptionValue (value : JSValue) (field : ResolvedField) : FormattingResult :=
  -- Already formatted
  if isAlreadyFormatted value then
    { success := true, formattedValue := some value, originalValue := value,
      formatDescription := some "pre-formatted object" }
  else
    let stringValue := jsToString value
    let allowedValues := field.metadata.allowedValues
    -- Try to find matching allowed value
    match findMatchingAllowedValue stringValue allowedValues with
    | some m =>
      -- Use the value field if available, otherwise use name
      let tok := strOr m.value m.name
      { success := true
        formattedValue := some (.obj [("value", .str tok)])
        originalValue := value
        formatDescription := some ("\x7b\"value\": \"" ++ tok ++ "\"\x7d") }
    | none =>
      -- No match found - still format it, validation will catch invalid values
      { success := true
        formattedValue := some (.obj [("value", .str stringValue)])
        originalValue := value
        formatDescription := some ("\x7b\"value\": \"" ++ stringValue ++ "\"\x7d") }

/-- Format a value for an array field (multi-select). -/
def formatArrayValue (value : JSValue) (field : ResolvedField) : FormattingResult :=
  -- Already a formatted array
  if isFormattedArray value then
    { success := true, formattedValue := some value, originalValue := value,
      formatDescription := some "pre-formatted array" }
  else
    -- Parse comma-separated string into array
    let items : List String :=
      match value with
      | .str s => ((splitOnChar ',' s).map jsTrim).filter (fun x => x.length > 0)
      | .arr elems => elems.map jsToString
      | v => [jsToString v]
    let itemType := field.metadata.schema.items
    let allowedValues := field.metadata.allowedValues
    -- Format each item based on the items type
    if itemType == some "option" || itemType == some "string" then
      let formattedItems := items.map (fun item =>
        match findMatchingAllowedValue item allowedValues with
        | some m => strOr m.value (strOrS m.name item)
        | none => item)
      { success := true
        formattedValue := some (.arr (formattedItems.map (fun v => .obj [("value", .str v)])))
        originalValue := value
        formatDescription := some ("[" ++ String.intercalate ", "
          (formattedItems.map (fun v => "\x7b\"value\": \"" ++ v ++ "\"\x7d")) ++ "]") }
    else if itemType == some "user" then
      let formattedItems := items
      { success := true
        formattedValue := some (.arr (formattedItems.map (fun v => .obj [("accountId", .str v)])))
        originalValue := value
        formatDescription := some ("[" ++ String.intercalate ", "
          (formattedItems.map (fun v => "\x7b\"accountId\": \"" ++ v ++ "\"\x7d")) ++ "]") }
    else
      -- Determine the correct format by inspecting allowedValues structure
      let formatStyle := detectAllowedValueFormat allowedValues
      let entries : List (JSValue × String) := items.map (fun item =>
        let m := findMatchingAllowedValue item allowedValues
        match formatStyle with
        | .name =>
          let val := match m with | some mm => strOrS mm.name item | none => item
          (.obj [("name", .str val)], "\x7b\"name\": \"" ++ val ++ "\"\x7d")
        | .id =>
          let val := match m with | some mm => strOrS mm.id item | none => item
          (.obj [("id", .str val)], "\x7b\"id\": \"" ++ val ++ "\"\x7d")
        | .value =>
          let val := match m with | some mm => strOr mm.value (strOrS mm.name item) | none => item
          (.obj [("value", .str val)], "\x7b\"value\": \"" ++ val ++ "\"\x7d"))
      { success := true
        formattedValue := some (.arr (entries.map Prod.fst))
        originalValue := value
        formatDescription := some ("[" ++ String.intercalate ", " (entries.map Prod.snd) ++ "]") }

/-- Format a value for a user field. -/
def formatUserValue (value : JSValue) (_field : ResolvedField) : FormattingResult :=
  -- Already formatted
  if isAlreadyFormatted value then
    { success := true, formattedValue := some value, originalValue := value,
      formatDescription := some "pre-formatted user object" }
  else
    let stringValue := jsToString value
    { success := true
      formattedValue := some (.obj [("accountId", .str stringValue)])
      originalValue := value
      formatDescription := some ("\x7b\"accountId\": \"" ++ stringValue ++ "\"\x7d") }

/-- Format a value for a priority field. -/
def formatPriorityValue (value : JSValue) (field : ResolvedField) : FormattingResult :=
  if isAlreadyFormatted value then
    { success := true, formattedValue := some value, originalValue := value,
      formatDescription := some "pre-formatted priority object" }
  else
    let stringValue := jsToString value
    let allowedValues := field.metadata.allowedValues
    -- Use ID if we found a match, otherwise use name
    match findMatchingAllowedValue stringValue allowedValues with
    | some m =>
      { success := true
        formattedValue := some (.obj [("id", .str m.id)])
        originalValue := value
        formatDescription := some ("\x7b\"id\": \"" ++ m.id ++ "\"\x7d") }
    | none =>
      { success := true
        formattedValue := some (.obj [("name", .str stringValue)])
        originalValue := value
        formatDescription := some ("\x7b\"name\": \"" ++ stringValue ++ "\"\x7d") }

/-- Format a value for version/component/resolution fields. -/
def formatNamedObjectValue (value : JSValue) (_field : ResolvedField)
    (objectType : String) : FormattingResult :=
  if isAlreadyFormatted value then
    { success := true, formattedValue := some value, originalValue := value,
      formatDescription := some ("pre-formatted " ++ objectType ++ " object") }
  else
    let stringValue := jsToString value
    { success := true
      formattedValue := some (.obj [("name", .str stringValue)])
      originalValue := value
      formatDescription := some ("\x7b\"name\": \"" ++ stringValue ++ "\"\x7d") }

/-- Format a number value (failure models the `NaN` check). -/
def formatNumberValue (value : JSValue) : FormattingResult :=
  match value with
  | .num n =>
    { success := true, formattedValue := some (.num n), originalValue := value,
      formatDescription := some "number" }
  | v =>
    match jsNumber v with
    | none =>
      { success := false, originalValue := v,
        error := some ("Invalid number value: " ++ jsToString v) }
    | some num =>
      { success := true, formattedValue := some (.num num), originalValue := v,
        formatDescription := some (toString num) }

/-! ## Date parsing model

Modelled from ECMA-262's Date Time String Format, which is the specified
(host-independent) part of `new Date(string)`: `"YYYY"`, `"YYYY-MM"` and
`"YYYY-MM-DD"` date forms, optionally followed by `"THH:MM"`,
`"THH:MM:SS"` or `"THH:MM:SS.sss"` with a `"Z"` UTC designator.
Out-of-range components yield an invalid date (`none`).  Strings only
accepted by a host's implementation-defined fallback parser, and date-times
carrying local-time semantics (no `"Z"`), are host-dependent and modelled as
unparseable. -/

/-- A parsed (UTC) date-time. -/
structure JsDate where
  year : Nat
  month : Nat
  day : Nat
  hour : Nat := 0
  minute : Nat := 0
  second : Nat := 0
  ms : Nat := 0
deriving Repr, DecidableEq

/-- Gregorian leap year test. -/
def isLeapYear (y : Nat) : Bool :=
  (y % 4 = 0 && y % 100 != 0) || y % 400 = 0

/-- Number of days in a month. -/
def daysInMonth (y m : Nat) : Nat :=
  if m = 2 then (if isLeapYear y then 29 else 28)
  else if m = 4 || m = 6 || m = 9 || m = 11 then 30
  else 31

/-- Parse a fixed-width decimal field. -/
def parseFixedNat (s : String) (w : Nat) : Option Nat :=
  if s.length = w && s.toList.all Char.isDigit then some (digitsToNat s.toList)
  else none

/-- Parse the date part `YYYY[-MM[-DD]]`. -/
def parseDatePart (d : String) : Option (Nat × Nat × Nat) :=
  match splitOnChar '-' d with
  | [y] => (parseFixedNat y 4).map (fun yy => (yy, 1, 1))
  | [y, m] => do
      let yy ← parseFixedNat y 4
      let mm ← parseFixedNat m 2
      if 1 ≤ mm ∧ mm ≤ 12 then some (yy, mm, 1) else none
  | [y, m, dd] => do
      let yy ← parseFixedNat y 4
      let mm ← parseFixedNat m 2
      let d2 ← parseFixedNat dd 2
      if 1 ≤ mm ∧ mm ≤ 12 ∧ 1 ≤ d2 ∧ d2 ≤ daysInMonth yy mm then some (yy, mm, d2)
      else none
  | _ => none

/-- Parse the time part `HH:MM[:SS[.sss]]Z`. -/
def parseTimePart (t : String) : Option (Nat × Nat × Nat × Nat) :=
  if !(t.toList.getLast? == some 'Z') then none
  else
    let core := String.mk t.toList.dropLast
    match splitOnChar ':' core with
    | [hh, mm] => do
        let h ← parseFixedNat hh 2
        let m ← parseFixedNat mm 2
        if h ≤ 23 ∧ m ≤ 59 then some (h, m, 0, 0) else none
    | [hh, mm, ssms] => do
        let h ← parseFixedNat hh 2
        let m ← parseFixedNat mm 2
        match splitOnChar '.' ssms with
        | [ss] => do
            let s ← parseFixedNat ss 2
            if h ≤ 23 ∧ m ≤ 59 ∧ s ≤ 59 then some (h, m, s, 0) else none
        | [ss, mss] => do
            let s ← parseFixedNat ss 2
            let msv ← parseFixedNat mss 3
            if h ≤ 23 ∧ m ≤ 59 ∧ s ≤ 59 then some (h, m, s, msv) else none
        | _ => none
    | _ => none

/-- `new Date(string)` validity / parse model: `none` models an invalid date
(`isNaN(date.getTime())`). -/
def jsDateParse (s : String) : Option JsDate :=
  match splitOnChar 'T' s with
  | [d] => (parseDatePart d).map (fun ymd =>
      { year := ymd.1, month := ymd.2.1, day := ymd.2.2 })
  | [d, t] => do
      let ymd ← parseDatePart d
      let hmsm ← parseTimePart t
      some { year := ymd.1, month := ymd.2.1, day := ymd.2.2,
             hour := hmsm.1, minute := hmsm.2.1, second := hmsm.2.2.1,
             ms := hmsm.2.2.2 }
  | _ => none

/-- Left-pad a decimal rendering with zeros. -/
def padNum (n w : Nat) : String :=
  let s := toString n
  String.mk (List.replicate (w - s.length) '0') ++ s

/-- The date prefix of `Date.prototype.toISOString` (the part before `'T'`,
i.e. `toISOString().split('T')[0]`). -/
def dateToIsoDatePart (d : JsDate) : String :=
  padNum d.year 4 ++ "-" ++ padNum d.month 2 ++ "-" ++ padNum d.day 2

/-- Full `Date.prototype.toISOString`. -/
def dateToIsoString (d : JsDate) : String :=
  dateToIsoDatePart d ++ "T" ++ padNum d.hour 2 ++ ":" ++ padNum d.minute 2
    ++ ":" ++ padNum d.second 2 ++ "." ++ padNum d.ms 3 ++ "Z"

/-- Format a date value: parse, then re-emit as `YYYY-MM-DD`. -/
def formatDateValue (value : JSValue) : FormattingResult :=
  let stringValue := jsToString value
  -- Try to parse as date
  match jsDateParse stringValue with
  | none =>
    { success := false, originalValue := value,
      error := some ("Invalid date value: " ++ stringValue ++ ". Use format YYYY-MM-DD") }
  | some date =>
    -- Format as ISO date (YYYY-MM-DD)
    let formatted := dateToIsoDatePart date
    { success := true, formattedValue := some (.str formatted), originalValue := value,
      formatDescription := some formatted }

/-- Format a datetime value: parse, then re-emit as a full ISO timestamp. -/
def formatDateTimeValue (value : JSValue) : FormattingResult :=
  let stringValue := jsToString value
  match jsDateParse stringValue with
  | none =>
    { success := false, originalValue := value,
      error := some ("Invalid datetime value: " ++ stringValue ++ ". Use ISO format") }
  | some date =>
    let formatted := dateToIsoString date
    { success := true, formattedValue := some (.str formatted), originalValue := value,
      formatDescription := some formatted }

/-- `String.prototype.includes` on the custom-type identifier. -/
def strIncludes (s pat : String) : Bool :=
  charsContain s.toList pat.toList

/-- The pass-through result of `formatFieldValue`. -/
def passThroughResult (value : JSValue) : FormattingResult :=
  { success := true, formattedValue := some value, originalValue := value,
    formatDescription := some "pass-through (text/string)" }

/-- Main function to format a field value based on its type. -/
def formatFieldValue (field : ResolvedField) (value : JSValue) : FormattingResult :=
  let schemaType := field.metadata.schema.type
  let customType := field.metadata.schema.custom
  -- Handle array types
  if schemaType = "array" then formatArrayValue value field
  -- Handle option/select types
  else if schemaType = "option" then formatOptionValue value field
  -- Handle user types
  else if schemaType = "user" then formatUserValue value field
  -- Handle priority
  else if schemaType = "priority" ∨ field.key = "priority" then
    formatPriorityValue value field
  -- Handle resolution
  else if schemaType = "resolution" ∨ field.key = "resolution" then
    formatNamedObjectValue value field "resolution"
  -- Handle version fields
  else if schemaType = "version" ∨ field.key = "fixVersions" ∨ field.key = "versions" then
    formatNamedObjectValue value field "version"
  -- Handle component fields
  else if schemaType = "component" ∨ field.key = "components" then
    formatNamedObjectValue value field "component"
  -- Handle number types
  else if schemaType = "number" then formatNumberValue value
  -- Handle date types
  else if schemaType = "date" then formatDateValue value
  -- Handle datetime types
  else if schemaType = "datetime" then formatDateTimeValue value
  else
    -- Check for custom field types that need special handling
    match customType with
    | some custom =>
      if custom = "" then passThroughResult value
      else if strIncludes custom "select" || strIncludes custom "radiobuttons" then
        formatOptionValue value field
      else if strIncludes custom "multiselect" || strIncludes custom "multicheckboxes" then
        formatArrayValue value field
      else if strIncludes custom "userpicker" then formatUserValue value field
      else if strIncludes custom "multiuserpicker" then formatArrayValue value field
      else if strIncludes custom "cascadingselect" then
        -- Cascading select is complex - for now, pass through
        { success := true, formattedValue := some value, originalValue := value,
          formatDescription := some "cascading select (pass-through)" }
      else passThroughResult value
    -- Default: pass through as-is (string, text, etc.)
    | none => passThroughResult value

/-- One entry of the batch formatting map: the formatted value and the
human-readable description of the transformation. -/
structure FormattedEntry where
  value : Option JSValue
  description : String
deriving Repr

/-- Loop body of `formatFieldValues`: unresolved names pass through; failures
are collected without stopping the batch. -/
def formatFieldValuesLoop (resolvedFields : List (String × ResolvedField)) :
    List (String × JSValue) → List (String × FormattedEntry) →
    List (String × String) → Bool →
    Bool × List (String × FormattedEntry) × List (String × String)
  | [], formatted, errors, allSuccess => (allSuccess, formatted, errors)
  | (name, value) :: rest, formatted, errors, allSuccess =>
    match resolvedFields.lookup name with
    | none =>
      -- Field not resolved, pass through as-is
      formatFieldValuesLoop resolvedFields rest
        (jsMapSet formatted name
          { value := some value, description := "unresolved (pass-through)" })
        errors allSuccess
    | some field =>
      let result := formatFieldValue field value
      if result.success then
        formatFieldValuesLoop resolvedFields rest
          (jsMapSet formatted name
            { value := result.formattedValue,
              description := strOr result.formatDescription "formatted" })
          errors allSuccess
      else
        formatFieldValuesLoop resolvedFields rest formatted
          (errors ++ [(name, strOr result.error "Unknown formatting error")]) false

/-- Format multiple field values. -/
def formatFieldValues (resolvedFields : List (String × ResolvedField))
    (fieldPairs : List (String × JSValue)) :
    Bool × List (String × FormattedEntry) × List (String × String) :=
  formatFieldValuesLoop resolvedFields fieldPairs [] [] true

/-! ## ADF to Markdown converter (Document→Markup) -/

/-- An attribute value of a document node or mark
(`string | number | boolean | null | undefined`, with `undefined` modelled
by the absence of the binding). -/
inductive AttrVal where
  | str (s : String)
  | num (n : Int)
  | bool (b : Bool)
  | null
deriving Repr, DecidableEq, BEq

/-- ADF Mark - formatting applied to text (bold, italic, links, etc.). -/
structure AdfMark where
  type : String
  attrs : List (String × AttrVal) := []
deriving Repr, DecidableEq

/-- ADF Node - a single node in the ADF document tree. -/
inductive AdfNode where
  | mk (type : String) (content : List AdfNode) (attrs : List (String × AttrVal))
       (text : Option String) (marks : List AdfMark)
deriving Repr

/-- The `type` field of a node. -/
def AdfNode.type : AdfNode → String
  | .mk t _ _ _ _ => t

/-- The `content` field of a node (`node.content || []`). -/
def AdfNode.content : AdfNode → List AdfNode
  | .mk _ c _ _ _ => c

/-- The `attrs` field of a node. -/
def AdfNode.attrs : AdfNode → List (String × AttrVal)
  | .mk _ _ a _ _ => a

/-- The `text` field of a node. -/
def AdfNode.text : AdfNode → Option String
  | .mk _ _ _ t _ => t

/-- The `marks` field of a node. -/
def AdfNode.marks : AdfNode → List AdfMark
  | .mk _ _ _ _ m => m

/-- Truthiness of an attribute value. -/
def attrTruthy : AttrVal → Bool
  | .str s => s != ""
  | .num n => n != 0
  | .bool b => b
  | .null => false

/-- Template-literal stringification of an attribute value. -/
def attrToString : AttrVal → String
  | .str s => s
  | .num n => toString n
  | .bool b => if b then "true" else "false"
  | .null => "null"

/-- `node.attrs?.k || dflt` as a string. -/
def attrOr (attrs : List (String × AttrVal)) (k dflt : String) : String :=
  match attrs.lookup k with
  | some v => if attrTruthy v then attrToString v else dflt
  | none => dflt

/-- JavaScript `Number(·)` on an optional attribute (`none` models `NaN`). -/
def attrNumber : Option AttrVal → Option Int
  | some (.num n) => some n
  | some (.str s) => jsParseNumber s
  | some (.bool b) => some (if b then 1 else 0)
  | some .null => some 0
  | none => none

/-- `Number(node.attrs?.level) || 1`. -/
def headingLevel (attrs : List (String × AttrVal)) : Int :=
  match attrNumber (attrs.lookup "level") with
  | some n => if n = 0 then 1 else n
  | none => 1

/-- The conversion warning set: construct category → accumulated messages,
in insertion order. -/
abbrev Warnings := List (String × List String)

/-- Record a warning, deduplicating identical messages per category. -/
def addWarning (warnings : Warnings) (type message : String) : Warnings :=
  match warnings.lookup type with
  | none => warnings ++ [(type, [message])]
  | some msgs =>
    if msgs.contains message then warnings
    else jsMapSet warnings type (msgs ++ [message])

/-- Apply one inline mark to the accumulated text. -/
def applyMark (acc : String × Warnings) (mark : AdfMark) : String × Warnings :=
  let (text, warnings) := acc
  match mark.type with
  | "strong" => ("**" ++ text ++ "**", warnings)
  | "em" => ("*" ++ text ++ "*", warnings)
  | "code" => ("`" ++ text ++ "`", warnings)
  | "strike" => ("~~" ++ text ++ "~~", warnings)
  | "link" =>
    let href := attrOr mark.attrs "href" "#"
    ("[" ++ text ++ "](" ++ href ++ ")", warnings)
  | "underline" =>
    -- Markdown has no native underline, use emphasis instead
    ("*" ++ text ++ "*", addWarning warnings "underline" "Underline converted to emphasis")
  | "textColor" =>
    -- Markdown does not support text colors - preserve text only
    (text, addWarning warnings "textColor" "Text color formatting removed")
  | other => (text, addWarning warnings other ("Unsupported mark type: " ++ other))

/-- Render a text node's text through its marks. -/
def convertMarks (node : AdfNode) (warnings : Warnings) : String × Warnings :=
  let text := (node.text).getD ""
  match node.marks with
  | [] => (text, warnings)
  | marks => marks.foldl applyMark (text, warnings)

/-- The column count of a converted table row: pipe characters minus one
(the leading/trailing pipes). -/
def pipeColumns (s : String) : Nat :=
  (s.toList.countP (fun c => c = '|')) - 1

/-- The synthetic blank header row for a single-row table
(`'|' + Array(columnCount).fill(' ').join('|') + '|'`). -/
def blankHeaderRow (columnCount : Nat) : String :=
  "|" ++ String.intercalate "|" (List.replicate columnCount " ") ++ "|"

/-- The separator row (`'|' + Array(columnCount).fill('---').join('|') + '|'`). -/
def separatorRow (columnCount : Nat) : String :=
  "|" ++ String.intercalate "|" (List.replicate columnCount "---") ++ "|"

mutual
/-- Convert one document node to markdown, threading the warning set. -/
def convertNode (node : AdfNode) (warnings : Warnings) : String × Warnings :=
  match node with
  | .mk ty content attrs text marks =>
    match ty with
    | "doc" =>
      let pr := convertList content warnings
      (String.intercalate "\n\n" pr.1, pr.2)
    | "text" => convertMarks (.mk ty content attrs text marks) warnings
    | "paragraph" =>
      let pr := convertList content warnings
      (String.join pr.1, pr.2)
    | "heading" =>
      let level := headingLevel attrs
      let pr := convertList content warnings
      (String.mk (List.replicate level.toNat '#') ++ " " ++ String.join pr.1, pr.2)
    | "hardBreak" => ("\n", warnings)
    | "inlineCard" | "blockCard" | "embedCard" =>
      let url := attrOr attrs "url" "#"
      ("[" ++ url ++ "](" ++ url ++ ")", warnings)
    | "blockquote" =>
      let pr := convertList content warnings
      ("> " ++ String.intercalate "\n> " pr.1, pr.2)
    | "codeBlock" =>
      let language := attrOr attrs "language" ""
      let pr := convertList content warnings
      ("```" ++ language ++ "\n" ++ String.join pr.1 ++ "\n```", pr.2)
    | "orderedList" =>
      let pr := convertList content warnings
      (String.intercalate "\n"
        (pr.1.mapIdx (fun index itemContent =>
          toString (index + 1) ++ ". " ++ itemContent)), pr.2)
    | "bulletList" =>
      let pr := convertList content warnings
      (String.intercalate "\n" (pr.1.map (fun itemContent => "- " ++ itemContent)), pr.2)
    | "listItem" =>
      let pr := convertList content warnings
      (String.intercalate "\n" pr.1, pr.2)
    | "table" =>
      let pr := convertList content warnings
      match pr.1 with
      | [] => ("", pr.2)
      | firstRow :: restRows =>
        -- `if (!firstRow) return ''`
        if firstRow = "" then ("", pr.2)
        else
          -- Count columns from pipe characters (subtract 1: leading/trailing pipes).
          -- (For a first row with no pipe at all the JS source would throw a
          -- RangeError on the negative array length, caught by `convert`; the
          -- truncated subtraction of `pipeColumns` is only reached by claims
          -- on real rows.)
          let columnCount := pipeColumns firstRow
          let separator := separatorRow columnCount
          let tableMarkdown :=
            -- If there is only one row, create an empty header so the content
            -- shows as data
            if pr.1.length = 1 then
              String.intercalate "\n" [blankHeaderRow columnCount, separator, firstRow]
            else
              -- Treat first row as header, rest as data
              String.intercalate "\n" (firstRow :: separator :: restRows)
          -- Add blank lines before and after table for proper markdown parsing
          ("\n" ++ tableMarkdown ++ "\n", pr.2)
    | "tableRow" =>
      let pr := convertList content warnings
      ("|" ++ String.intercalate "|" pr.1 ++ "|", pr.2)
    | "tableCell" | "tableHeader" =>
      let pr := convertList content warnings
      (String.join pr.1, pr.2)
    | "rule" => ("---", warnings)
    | "taskList" =>
      let w0 := addWarning warnings "taskList" "Task lists may not render exactly as in Jira"
      let pr := convertList content w0
      (String.intercalate "\n" pr.1, pr.2)
    | "taskItem" =>
      let isChecked := attrs.lookup "state" == some (.str "DONE")
      let pr := convertList content warnings
      ("- [" ++ (if isChecked then "x" else " ") ++ "] " ++ String.join pr.1, pr.2)
    | "mediaGroup" | "mediaSingle" | "media" =>
      -- Media nodes are complex - just return a placeholder
      ("[Media attachment]",
       addWarning warnings "media" "Media attachments converted to placeholder")
    | other =>
      let w0 := addWarning warnings other ("Unsupported node type: " ++ other)
      let pr := convertList content w0
      (String.join pr.1, pr.2)

/-- Convert a list of children in order, threading the warning set. -/
def convertList (nodes : List AdfNode) (warnings : Warnings) : List String × Warnings :=
  match nodes with
  | [] => ([], warnings)
  | n :: rest =>
    let r1 := convertNode n warnings
    let r2 := convertList rest r1.2
    (r1.1 :: r2.1, r2.2)
end

/-- The fixed list of recognized code-block language captions. -/
def commonLanguages : List String :=
  ["bash", "json", "javascript", "typescript", "python", "java", "csharp",
   "c#", "sql", "xml", "html", "css", "yaml", "yml", "shell", "powershell",
   "go", "rust", "ruby", "php"]

/-- Is this a paragraph holding a single text child (a candidate language
caption)? -/
def isLangParagraph : AdfNode → Bool
  | .mk "paragraph" [inner] _ _ _ => inner.type == "text"
  | _ => false

/-- `current.content[0].text?.toLowerCase().trim() || ''`. -/
def langTextOf : AdfNode → String
  | .mk _ [inner] _ _ _ => jsTrim (jsToLower ((inner.text).getD ""))
  | _ => ""

mutual
/-- Pre-process ADF to fix common Jira quirks: a paragraph holding only a
recognized language name immediately before a code block is folded into the
code block's `language` attribute. -/
def preprocessAdf (node : AdfNode) : AdfNode :=
  match node with
  | .mk ty content attrs text marks =>
    if content.isEmpty then .mk ty content attrs text marks
    else .mk ty (preprocessList content) attrs text marks

/-- The pre-processing loop over a sibling list (with one-node lookahead). -/
def preprocessList (nodes : List AdfNode) : List AdfNode :=
  match nodes with
  | [] => []
  | current :: (AdfNode.mk nty ncontent nattrs ntext nmarks) :: rest2 =>
    if isLangParagraph current && nty == "codeBlock"
        && commonLanguages.contains (langTextOf current) then
      let text := langTextOf current
      let language := if text = "c#" then "csharp" else text
      -- Skip this paragraph and add language to the code block; recursively
      -- pre-process the enhanced code block (inlined one step so the
      -- recursion stays structural on `ncontent`)
      let processedContent := if ncontent.isEmpty then ncontent else preprocessList ncontent
      AdfNode.mk nty processedContent (jsMapSet nattrs "language" (.str language))
          ntext nmarks
        :: preprocessList rest2
    else
      preprocessAdf current
        :: preprocessList (AdfNode.mk nty ncontent nattrs ntext nmarks :: rest2)
  | [current] => [preprocessAdf current]
end

/-- The input to `convert`: a proper document node, a plain node, a string,
`null` or `undefined`. -/
inductive AdfInput where
  | undef
  | null
  | str (s : String)
  | node (n : AdfNode)
deriving Repr

/-- Output of the Document→Markup conversion. -/
structure ConversionResult where
  result : String
  warnings : Warnings
deriving Repr, DecidableEq

/-- `validateInput`: reject falsy/non-object inputs and non-`doc` roots
(the thrown `Error` is modelled with `Except.error`). -/
def validateInput : AdfInput → Except String AdfNode
  | .undef => .error "Input must be a valid ADF object"
  | .null => .error "Input must be a valid ADF object"
  | .str _ => .error "Input must be a valid ADF object"
  | .node n =>
    if n.type ≠ "doc" then .error "ADF must have a root \"doc\" node"
    else .ok n

/-- Convert an ADF input to markdown; a validation failure is caught and
surfaced as an empty result with a single `error` warning category. -/
def convert (adf : AdfInput) : ConversionResult :=
  match validateInput adf with
  | .error message => { result := "", warnings := [("error", [message])] }
  | .ok node =>
    let preprocessed := preprocessAdf node
    let pr := convertNode preprocessed []
    { result := jsTrim pr.1, warnings := pr.2 }

/-! ## Helper lemmas about the converter -/

/-- `convertList` converts every child: it preserves the length. -/
theorem convertList_length (nodes : List AdfNode) (w : Warnings) :
    ((convertList nodes w).1).length = nodes.length := by
  induction nodes generalizing w with
  | nil => simp [convertList]
  | cons n rest ih => simp [convertList, ih]

/-- A converted table row is wrapped in pipes. -/
theorem convertNode_tableRow_eq (content : List AdfNode)
    (attrs : List (String × AttrVal)) (text : Option String)
    (marks : List AdfMark) (w : Warnings) :
    convertNode (.mk "tableRow" content attrs text marks) w =
      ("|" ++ String.intercalate "|" (convertList content w).1 ++ "|",
       (convertList content w).2) := rfl

/-- A string of positive length is not empty. -/
theorem pipe_wrapped_ne_empty (s : String) : "|" ++ s ++ "|" ≠ "" := by
  intro h
  have hl := congrArg String.length h
  simp [String.length_append] at hl
  exact absurd hl.1.1 (by decide)

/-- Converting a `tableRow` node never yields the empty string. -/
theorem convertNode_tableRow_ne_empty (r : AdfNode) (w : Warnings)
    (h : r.type = "tableRow") : (convertNode r w).1 ≠ "" := by
  obtain ⟨ty, content, attrs, text, marks⟩ := r
  simp only [AdfNode.type] at h
  subst h
  rw [convertNode_tableRow_eq]
  exact pipe_wrapped_ne_empty _

/-- The single-row table policy at the level of `convertNode`: a table whose
sole child converts to a non-empty row renders as a synthetic blank header,
the separator, then the real row. -/
theorem convertNode_table_single (r : AdfNode) (tattrs : List (String × AttrVal))
    (ttext : Option String) (tmarks : List AdfMark) (w : Warnings)
    (h : (convertNode r w).1 ≠ "") :
    convertNode (.mk "table" [r] tattrs ttext tmarks) w =
      ("\n" ++ String.intercalate "\n"
          [blankHeaderRow (pipeColumns (convertNode r w).1),
           separatorRow (pipeColumns (convertNode r w).1),
           (convertNode r w).1] ++ "\n",
       (convertNode r w).2) := by
  simp only [convertNode, convertList]
  simp [h]

/-- With two or more rows, the first converted row is the header: it is
followed by the separator and then the remaining rows as data. -/
theorem convertNode_table_multi (r1 r2 : AdfNode) (rest : List AdfNode)
    (tattrs : List (String × AttrVal)) (ttext : Option String)
    (tmarks : List AdfMark) (w : Warnings)
    (h : (convertNode r1 w).1 ≠ "") :
    convertNode (.mk "table" (r1 :: r2 :: rest) tattrs ttext tmarks) w =
      ("\n" ++ String.intercalate "\n"
          ((convertNode r1 w).1
            :: separatorRow (pipeColumns (convertNode r1 w).1)
            :: (convertList (r2 :: rest) (convertNode r1 w).2).1) ++ "\n",
       (convertList (r2 :: rest) (convertNode r1 w).2).2) := by
  have hcl : convertList (r1 :: r2 :: rest) w =
      ((convertNode r1 w).1 :: (convertList (r2 :: rest) (convertNode r1 w).2).1,
       (convertList (r2 :: rest) (convertNode r1 w).2).2) := rfl
  have hlen :
      ((convertNode r1 w).1 :: (convertList (r2 :: rest) (convertNode r1 w).2).1).length ≠ 1 := by
    simp [convertList_length]
  have hne : (convertList (r2 :: rest) (convertNode r1 w).2).1 ≠ [] := by
    intro hnil
    have hl2 := convertList_length (r2 :: rest) (convertNode r1 w).2
    rw [hnil] at hl2
    simp at hl2
  simp only [convertNode, hcl]
  simp [h, hlen, hne]

/-! ## Concrete example documents -/

/-- A table cell holding a single text node. -/
def exampleCell (s : String) : AdfNode :=
  .mk "tableCell" [.mk "text" [] [] (some s) []] [] none []

/-- A table row of plain text cells. -/
def exampleRow (cells : List String) : AdfNode :=
  .mk "tableRow" (cells.map exampleCell) [] none []

/-- A document holding one table with exactly one row of cells `"a"`, `"b"`. -/
def exampleSingleRowTableDoc : AdfNode :=
  .mk "doc" [.mk "table" [exampleRow ["a", "b"]] [] none []] [] none []

/-- A table with a header row and one data row. -/
def exampleTwoRowTable : AdfNode :=
  .mk "table" [exampleRow ["h1", "h2"], exampleRow ["a", "b"]] [] none []

/-! ## Claim theorems -/

/-- **C1**: a table node holding exactly one row converts to a synthetic
blank header row, then the separator row, then the real row as data (the
column count being derived from the pipes of the converted row); with two or
more rows the first converted row is the header, followed by the separator
and the remaining rows.  Concretely, the one-row table with cells `"a"`,`"b"`
converts to a blank header row `"| | |"`, a separator `"|---|---|"` of two
`---` cells and the data row `"|a|b|"`. -/
theorem C1_single_row_table_policy :
    (∀ (r : AdfNode) (tattrs : List (String × AttrVal)) (ttext : Option String)
        (tmarks : List AdfMark) (w : Warnings), r.type = "tableRow" →
        convertNode (.mk "table" [r] tattrs ttext tmarks) w =
          ("\n" ++ String.intercalate "\n"
              [blankHeaderRow (pipeColumns (convertNode r w).1),
               separatorRow (pipeColumns (convertNode r w).1),
               (convertNode r w).1] ++ "\n",
           (convertNode r w).2))
    ∧ (∀ (r1 r2 : AdfNode) (rest : List AdfNode) (tattrs : List (String × AttrVal))
          (ttext : Option String) (tmarks : List AdfMark) (w : Warnings),
        r1.type = "tableRow" →
        convertNode (.mk "table" (r1 :: r2 :: rest) tattrs ttext tmarks) w =
          ("\n" ++ String.intercalate "\n"
              ((convertNode r1 w).1
                :: separatorRow (pipeColumns (convertNode r1 w).1)
                :: (convertList (r2 :: rest) (convertNode r1 w).2).1) ++ "\n",
           (convertList (r2 :: rest) (convertNode r1 w).2).2))
    ∧ (convertNode (.mk "table" [exampleRow ["a", "b"]] [] none []) []).1 =
        "\n| | |\n|---|---|\n|a|b|\n"
    ∧ (convertNode exampleTwoRowTable []).1 = "\n|h1|h2|\n|---|---|\n|a|b|\n" := by
  refine ⟨?_, ?_, ?_, ?_⟩
  · intro r tattrs ttext tmarks w h
    exact convertNode_table_single r tattrs ttext tmarks w
      (convertNode_tableRow_ne_empty r w h)
  · intro r1 r2 rest tattrs ttext tmarks w h
    exact convertNode_table_multi r1 r2 rest tattrs ttext tmarks w
      (convertNode_tableRow_ne_empty r1 w h)
  · decide
  · decide

/-- Witness for C1: the single-row branch applied to the concrete row
`["a", "b"]` from an empty warning set. -/
theorem C1_single_row_table_policy_witness :
    convertNode (.mk "table" [exampleRow ["a", "b"]] [] none []) [] =
      ("\n" ++ String.intercalate "\n"
          [blankHeaderRow (pipeColumns (convertNode (exampleRow ["a", "b"]) []).1),
           separatorRow (pipeColumns (convertNode (exampleRow ["a", "b"]) []).1),
           (convertNode (exampleRow ["a", "b"]) []).1] ++ "\n",
       (convertNode (exampleRow ["a", "b"]) []).2) :=
  C1_single_row_table_policy.1 (exampleRow ["a", "b"]) [] none [] [] rfl

/-- **C2**: every input to `convert` that is not a well-formed document root
(`null`, `undefined`, a string — i.e. a non-object —, or an object whose
`type` is not `"doc"`) yields the empty result string and a warning set
holding exactly the single category `"error"`; no exception reaches the
caller (`convert` is a total function into `ConversionResult`). -/
theorem C2_invalid_root_error_handling :
    convert .null =
      { result := "", warnings := [("error", ["Input must be a valid ADF object"])] }
    ∧ convert .undef =
      { result := "", warnings := [("error", ["Input must be a valid ADF object"])] }
    ∧ (∀ s : String, convert (.str s) =
        { result := "", warnings := [("error", ["Input must be a valid ADF object"])] })
    ∧ (∀ n : AdfNode, n.type ≠ "doc" → convert (.node n) =
        { result := "", warnings := [("error", ["ADF must have a root \"doc\" node"])] }) := by
  refine ⟨rfl, rfl, fun s => rfl, fun n h => ?_⟩
  simp [convert, validateInput, h]

/-- Witness for C2: a root node of type `"paragraph"` is rejected with the
single `error` warning category. -/
theorem C2_invalid_root_error_handling_witness :
    convert (.node (.mk "paragraph" [] [] none [])) =
      { result := "", warnings := [("error", ["ADF must have a root \"doc\" node"])] } :=
  C2_invalid_root_error_handling.2.2.2 (.mk "paragraph" [] [] none []) (by decide)

/-! ## Lemmas about the suggestion search -/

/-- A small example schema for the suggestion examples. -/
def exampleFieldsMeta : List (String × JiraFieldMeta) :=
  [("customfield_10269",
    { required := false, name := "Severity", key := "customfield_10269",
      schema := { type := "option" } }),
   ("summary",
    { required := true, name := "Summary", key := "summary",
      schema := { type := "string" } }),
   ("priority",
    { required := false, name := "Priority", key := "priority",
      schema := { type := "priority" } }),
   ("description",
    { required := false, name := "Description", key := "description",
      schema := { type := "string" } })]

/-- The comparison relation of the suggestion sort is total. -/
instance : IsTotal (String × Nat) (fun x y => x.2 ≤ y.2) :=
  ⟨fun a b => Nat.le_total a.2 b.2⟩

/-- The comparison relation of the suggestion sort is transitive. -/
instance : IsTrans (String × Nat) (fun x y => x.2 ≤ y.2) :=
  ⟨fun _ _ _ => Nat.le_trans⟩

/-- If every candidate is strictly farther than the cutoff, no suggestion is
returned. -/
theorem findSimilarFieldNames_all_far (name : String)
    (fields : List (String × JiraFieldMeta)) (maxSuggestions : Nat)
    (h : ∀ p ∈ fields, Nat.max 3 ((name.length + 1) / 2) <
      levenshteinDistance (jsToLower name) (jsToLower p.2.name)) :
    findSimilarFieldNames name fields maxSuggestions = [] := by
  have hnil : (fields.filterMap fun f =>
      let fieldNameLower := jsToLower f.2.name
      let distance := levenshteinDistance (jsToLower name) fieldNameLower
      if distance ≤ Nat.max 3 ((name.length + 1) / 2) then some (f.2.name, distance)
      else none) = [] := by
    rw [List.filterMap_eq_nil_iff]
    intro p hp
    simp only
    rw [if_neg (Nat.not_le.mpr (h p hp))]
  simp only [findSimilarFieldNames, hnil]
  simp

/-- At most `maxSuggestions` suggestions are returned. -/
theorem findSimilarFieldNames_length_le (name : String)
    (fields : List (String × JiraFieldMeta)) (maxSuggestions : Nat) :
    (findSimilarFieldNames name fields maxSuggestions).length ≤ maxSuggestions := by
  simp only [findSimilarFieldNames, List.length_map, List.length_take]
  omega

/-- Every returned suggestion is the display name of a schema field within
the edit-distance cutoff. -/
theorem findSimilarFieldNames_mem (name : String)
    (fields : List (String × JiraFieldMeta)) (maxSuggestions : Nat) (s : String)
    (hs : s ∈ findSimilarFieldNames name fields maxSuggestions) :
    (∃ p ∈ fields, p.2.name = s)
    ∧ levenshteinDistance (jsToLower name) (jsToLower s) ≤ Nat.max 3 ((name.length + 1) / 2) := by
  simp only [findSimilarFieldNames, List.mem_map] at hs
  obtain ⟨⟨s', d⟩, hmem, rfl⟩ := hs
  have hcand : (s', d) ∈ (fields.filterMap fun f =>
      let fieldNameLower := jsToLower f.2.name
      let distance := levenshteinDistance (jsToLower name) fieldNameLower
      if distance ≤ Nat.max 3 ((name.length + 1) / 2) then some (f.2.name, distance)
      else none) := by
    have := List.take_subset maxSuggestions _ hmem
    exact (List.mem_insertionSort _).mp this
  obtain ⟨p, hp, hfp⟩ := List.mem_filterMap.mp hcand
  simp only at hfp
  by_cases hle : levenshteinDistance (jsToLower name) (jsToLower p.2.name) ≤
      Nat.max 3 ((name.length + 1) / 2)
  · rw [if_pos hle] at hfp
    obtain ⟨h1, h2⟩ := Prod.mk.injEq .. ▸ (Option.some.injEq _ _ ▸ hfp)
    subst h1
    exact ⟨⟨p, hp, rfl⟩, hle⟩
  · rw [if_neg hle] at hfp
    exact absurd hfp (by simp)

/-- The suggestions come out sorted ascending by edit distance. -/
theorem findSimilarFieldNames_sorted (name : String)
    (fields : List (String × JiraFieldMeta)) (maxSuggestions : Nat) :
    List.Sorted (· ≤ ·) ((findSimilarFieldNames name fields maxSuggestions).map
      (fun s => levenshteinDistance (jsToLower name) (jsToLower s))) := by
  simp only [findSimilarFieldNames]
  set cands := (fields.filterMap fun f =>
      let fieldNameLower := jsToLower f.2.name
      let distance := levenshteinDistance (jsToLower name) fieldNameLower
      if distance ≤ Nat.max 3 ((name.length + 1) / 2) then some (f.2.name, distance)
      else none) with hcands
  have hinv : ∀ x ∈ cands, x.2 = levenshteinDistance (jsToLower name) (jsToLower x.1) := by
    intro x hx
    obtain ⟨p, hp, hfp⟩ := List.mem_filterMap.mp hx
    simp only at hfp
    by_cases hle : levenshteinDistance (jsToLower name) (jsToLower p.2.name) ≤
        Nat.max 3 ((name.length + 1) / 2)
    · rw [if_pos hle] at hfp
      cases hfp
      rfl
    · rw [if_neg hle] at hfp
      exact absurd hfp (by simp)
  have hsorted : List.Sorted (fun x y => x.2 ≤ y.2)
      (cands.insertionSort (fun x y => x.2 ≤ y.2)) :=
    List.sorted_insertionSort _ _
  have htake : List.Pairwise (fun x y => x.2 ≤ y.2)
      ((cands.insertionSort (fun x y => x.2 ≤ y.2)).take maxSuggestions) :=
    List.Pairwise.sublist (List.take_sublist _ _) hsorted
  rw [List.map_map]
  refine List.pairwise_map.mpr ?_
  refine htake.imp_of_mem ?_
  intro a b ha hb hr
  have hmema : a ∈ cands := (List.mem_insertionSort _).mp (List.take_subset _ _ ha)
  have hmemb : b ∈ cands := (List.mem_insertionSort _).mp (List.take_subset _ _ hb)
  simpa [Function.comp, ← hinv a hmema, ← hinv b hmemb] using hr

/-- **C3**: on a failed resolution the suggester computes the Levenshtein
distance between the lowercased query and each candidate display name
(lowercased), keeps only candidates within `max(3, ceil(len * 0.5))` edits,
sorts them ascending by distance and returns at most the requested number of
suggestions (3 at every call site).  Concretely, `"Sevrity"` against a schema
holding `"Severity"` (distance 1) returns `"Severity"` first, and a query
strictly farther than the cutoff from every candidate returns no
suggestions. -/
theorem C3_levenshtein_suggestion_policy :
    levenshteinDistance "sevrity" "severity" = 1
    ∧ findSimilarFieldNames "Sevrity" exampleFieldsMeta 3 = ["Severity", "Priority"]
    ∧ (∀ (name : String) (fields : List (String × JiraFieldMeta)) (maxSuggestions : Nat),
        (∀ p ∈ fields, Nat.max 3 ((name.length + 1) / 2) <
          levenshteinDistance (jsToLower name) (jsToLower p.2.name)) →
        findSimilarFieldNames name fields maxSuggestions = [])
    ∧ (∀ (name : String) (fields : List (String × JiraFieldMeta)) (maxSuggestions : Nat),
        (findSimilarFieldNames name fields maxSuggestions).length ≤ maxSuggestions)
    ∧ (∀ (name : String) (fields : List (String × JiraFieldMeta)) (maxSuggestions : Nat)
          (s : String), s ∈ findSimilarFieldNames name fields maxSuggestions →
        (∃ p ∈ fields, p.2.name = s)
        ∧ levenshteinDistance (jsToLower name) (jsToLower s) ≤ Nat.max 3 ((name.length + 1) / 2))
    ∧ (∀ (name : String) (fields : List (String × JiraFieldMeta)) (maxSuggestions : Nat),
        List.Sorted (· ≤ ·) ((findSimilarFieldNames name fields maxSuggestions).map
          (fun s => levenshteinDistance (jsToLower name) (jsToLower s)))) :=
  ⟨by decide, by decide, findSimilarFieldNames_all_far,
   findSimilarFieldNames_length_le, findSimilarFieldNames_mem,
   findSimilarFieldNames_sorted⟩

/-- Witness for C3: the query `"xqzw"` is strictly farther than the cutoff
from every candidate of the example schema, so no suggestion is returned. -/
theorem C3_levenshtein_suggestion_policy_witness :
    findSimilarFieldNames "xqzw" exampleFieldsMeta 3 = [] :=
  C3_levenshtein_suggestion_policy.2.2.1 "xqzw" exampleFieldsMeta 3 (by decide)

/-! ## Lemmas about the schema cache -/

/-- After `Map.set`, looking up the written key returns the written value. -/
theorem jsMapSet_lookup_self {α : Type} (l : List (String × α)) (k : String) (v : α) :
    (jsMapSet l k v).lookup k = some v := by
  induction l with
  | nil => simp [jsMapSet]
  | cons p rest ih =>
    by_cases h : p.1 = k
    · simp [jsMapSet, h, List.lookup]
    · obtain ⟨k0, v0⟩ := p
      simp only at h
      simp [jsMapSet, h, List.lookup, ih, beq_false_of_ne (Ne.symm h)]

/-- An example schema provider for the cache witnesses. -/
def exampleGetCreateMeta : String → Except String CreateMeta :=
  fun _ => .ok
    { projects :=
        [{ key := "PROJ",
           issuetypes :=
             [{ name := "Task",
                fields :=
                  [("summary",
                    { required := true, name := "Summary", key := "summary",
                      schema := { type := "string" } })] }] }] }

/-- The field map that `exampleGetCreateMeta` yields for `(PROJ, Task)`. -/
def exampleFieldMap : FieldMap :=
  [("summary",
    { required := true, name := "Summary", key := "summary",
      schema := { type := "string" } })]

/-- **C4**: starting from a cache with no entry for the pair, a successful
fetch invokes the provider, and a second fetch for the same pair returns the
stored map from the new cache without invoking the provider again;
`clear()` empties the cache, so the next fetch always invokes the provider. -/
theorem C4_schema_cache_single_fetch :
    (∀ (g : String → Except String CreateMeta) (cache : MetadataCache)
        (projectKey issueType : String) (m : FieldMap) (c1 : MetadataCache) (b : Bool),
        cache.lookup (getCacheKey projectKey issueType) = none →
        fetchFieldMetadata g cache projectKey issueType = (.ok m, c1, b) →
        b = true
        ∧ fetchFieldMetadata g c1 projectKey issueType = (.ok m, c1, false))
    ∧ (∀ (g : String → Except String CreateMeta) (cache : MetadataCache)
          (projectKey issueType : String),
        (fetchFieldMetadata g (clearFieldMetadataCache cache) projectKey issueType).2.2
          = true) := by
  constructor
  · intro g cache projectKey issueType m c1 b hmiss heq
    simp only [fetchFieldMetadata, hmiss] at heq
    cases hg : g projectKey with
    | error e => simp [hg, Prod.mk.injEq] at heq
    | ok cm =>
      simp only [hg] at heq
      cases hp : cm.projects.find? (fun p => jsToUpper p.key = jsToUpper projectKey) with
      | none => simp [hp, Prod.mk.injEq] at heq
      | some project =>
        simp only [hp] at heq
        cases hit : project.issuetypes.find?
            (fun it => jsToLower it.name = jsToLower issueType) with
        | none => simp [hit, Prod.mk.injEq] at heq
        | some issueTypeMeta =>
          simp only [hit, Prod.mk.injEq, Except.ok.injEq] at heq
          obtain ⟨hm, hc, hb⟩ := heq
          subst hm
          subst hc
          refine ⟨hb.symm, ?_⟩
          simp only [fetchFieldMetadata, jsMapSet_lookup_self]
  · intro g cache projectKey issueType
    simp only [fetchFieldMetadata, clearFieldMetadataCache, List.lookup]
    split
    · rfl
    · split
      · rfl
      · split
        · rfl
        · rfl

/-- Witness for C4: fetching `(PROJ, Task)` from the empty cache succeeds
(invoking the example provider), and the second fetch from the resulting
cache returns the stored map without invoking the provider. -/
theorem C4_schema_cache_single_fetch_witness :
    fetchFieldMetadata exampleGetCreateMeta
        (jsMapSet [] (getCacheKey "PROJ" "Task") exampleFieldMap) "PROJ" "Task"
      = (.ok exampleFieldMap,
         jsMapSet [] (getCacheKey "PROJ" "Task") exampleFieldMap, false) :=
  (C4_schema_cache_single_fetch.1 exampleGetCreateMeta [] "PROJ" "Task"
    exampleFieldMap (jsMapSet [] (getCacheKey "PROJ" "Task") exampleFieldMap) true
    rfl rfl).2

/-! ## Lemmas about the value validator -/

/-- Characterization of the validator's per-entry match: the name and the
(truthy) value token match case-insensitively, the id by exact string
equality against the unlowercased comparison string. -/
theorem allowedValueMatches_iff (cl cv : String) (av : AllowedValue) :
    allowedValueMatches cl cv av = true ↔
      jsToLower av.name = cl
      ∨ (∃ v, av.value = some v ∧ v ≠ "" ∧ jsToLower v = cl)
      ∨ av.id = cv := by
  unfold allowedValueMatches
  cases hv : av.value with
  | none => simp
  | some v => simp [and_assoc, or_assoc]

/-- A field used by the validator examples: an option field named
`"Severity"` with allowed values `High` (id 1) and `Low` (id 2). -/
def exampleOptionField : ResolvedField :=
  { originalName := "Severity", key := "customfield_10269",
    displayName := "Severity", type := "option", isCustom := true,
    metadata :=
      { required := false, name := "Severity", key := "customfield_10269",
        schema := { type := "option" },
        allowedValues := some [{ id := "1", name := "High" },
                               { id := "2", name := "Low" }] } }

/-- A field whose allowed value is distinguishable only by its id. -/
def exampleIdOnlyField : ResolvedField :=
  { originalName := "Risk", key := "customfield_9", displayName := "Risk",
    type := "option", isCustom := true,
    metadata :=
      { required := false, name := "Risk", key := "customfield_9",
        schema := { type := "option" },
        allowedValues := some [{ id := "X1", name := "High" }] } }

/-- Counterexample to C5 as stated: the comparison string `"x1"` matches the
allowed id `"X1"` case-insensitively, yet the verdict is invalid — the id is
compared by exact (case-sensitive) string equality, not case-insensitively. -/
theorem C5_counterexample_id_case_sensitive :
    jsToLower (compareValueOf (.str "x1")) = jsToLower "X1"
    ∧ (validateFieldValue exampleIdOnlyField (.str "x1")).valid = false := by
  constructor
  · decide
  · decide

/-- **C5 (amended)**: with a non-empty allowed-value enumeration, the
validator unwraps the formatted value to a comparison string
(`compareValueOf`: its `value`, else `name`, else `id`, stringified) and
accepts exactly when some allowed entry matches — case-insensitively on the
entry's name or (truthy) value token, and by exact string equality on the
entry's id. -/
theorem C5_validator_matching_amended (field : ResolvedField) (value : JSValue)
    (avs : List AllowedValue) (hav : field.metadata.allowedValues = some avs)
    (hne : avs ≠ []) :
    (validateFieldValue field value).valid = true ↔
      ∃ av ∈ avs,
        jsToLower av.name = jsToLower (compareValueOf value)
        ∨ (∃ v, av.value = some v ∧ v ≠ ""
            ∧ jsToLower v = jsToLower (compareValueOf value))
        ∨ av.id = compareValueOf value := by
  have hvalid : (validateFieldValue field value).valid =
      avs.any (allowedValueMatches (jsToLower (compareValueOf value))
        (compareValueOf value)) := by
    simp only [validateFieldValue, hav]
    rw [if_neg (fun hc => hne (List.length_eq_zero.mp hc))]
    by_cases h : avs.any (allowedValueMatches (jsToLower (compareValueOf value))
        (compareValueOf value)) = true
    · rw [if_pos h, h]
    · rw [if_neg h]
      simp only [Bool.not_eq_true] at h
      rw [h]
  rw [hvalid, List.any_eq_true]
  constructor
  · rintro ⟨av, hmem, hmatch⟩
    exact ⟨av, hmem, (allowedValueMatches_iff _ _ av).mp hmatch⟩
  · rintro ⟨av, hmem, hdisj⟩
    exact ⟨av, hmem, (allowedValueMatches_iff _ _ av).mpr hdisj⟩

/-- Witness for C5 (amended): `{value: "HIGH"}` is accepted against the
`High`/`Low` enumeration through the case-insensitive name match. -/
theorem C5_validator_matching_amended_witness :
    (validateFieldValue exampleOptionField (.obj [("value", .str "HIGH")])).valid = true :=
  (C5_validator_matching_amended exampleOptionField (.obj [("value", .str "HIGH")])
    [{ id := "1", name := "High" }, { id := "2", name := "Low" }] rfl (by decide)).mpr
    ⟨{ id := "1", name := "High" }, by decide, Or.inl (by decide)⟩

/-! ## Lemmas about the date formatter -/

/-- A resolved date-typed field named `"Due Date"`. -/
def exampleDateField : ResolvedField :=
  { originalName := "Due Date", key := "duedate", displayName := "Due Date",
    type := "date", isCustom := false,
    metadata :=
      { required := false, name := "Due Date", key := "duedate",
        schema := { type := "date" } } }

/-- The date formatter fails exactly when the input does not parse as a
date. -/
theorem formatDateValue_success_iff (v : JSValue) :
    (formatDateValue v).success = false ↔ jsDateParse (jsToString v) = none := by
  cases hd : jsDateParse (jsToString v) with
  | none => simp [formatDateValue, hd]
  | some d => simp [formatDateValue, hd]

/-- On success the date formatter re-emits the parsed date as the
`YYYY-MM-DD` prefix of its ISO rendering. -/
theorem formatDateValue_formatted (v : JSValue) (d : JsDate)
    (hd : jsDateParse (jsToString v) = some d) :
    (formatDateValue v).formattedValue = some (.str (dateToIsoDatePart d)) := by
  simp only [formatDateValue, hd]

/-- Counterexample to C6 as stated: the failure's error message is
`"Invalid date value: not-a-date. Use format YYYY-MM-DD"`, which does not
contain the field's display name (`"Due Date"`) or key (`"duedate"`) — the
message does not name the field. -/
theorem C6_counterexample_message_lacks_field_name :
    (formatFieldValue exampleDateField (.str "not-a-date")).error =
      some "Invalid date value: not-a-date. Use format YYYY-MM-DD"
    ∧ strIncludes "Invalid date value: not-a-date. Use format YYYY-MM-DD" "Due Date" = false
    ∧ strIncludes "Invalid date value: not-a-date. Use format YYYY-MM-DD" "duedate" = false :=
  ⟨by rfl, by decide, by decide⟩

/-- **C6 (amended)**: formatting `"2024-01-15"` for a date-typed field
succeeds and returns `"2024-01-15"`; formatting `"not-a-date"` fails with
the message `"Invalid date value: not-a-date. Use format YYYY-MM-DD"`, which
describes the invalid value and the expected format but does not itself name
the field — the field's name is attached alongside the message in the batch
formatting result.  In general the date formatter fails exactly when the
input cannot be parsed as a date and on success re-emits it as a
`YYYY-MM-DD` string. -/
theorem C6_date_formatter_amended :
    formatFieldValue exampleDateField (.str "2024-01-15") =
      { success := true, formattedValue := some (.str "2024-01-15"),
        originalValue := .str "2024-01-15", formatDescription := some "2024-01-15" }
    ∧ formatFieldValue exampleDateField (.str "not-a-date") =
      { success := false, originalValue := .str "not-a-date",
        error := some "Invalid date value: not-a-date. Use format YYYY-MM-DD" }
    ∧ (∀ v : JSValue, (formatDateValue v).success = false ↔
        jsDateParse (jsToString v) = none)
    ∧ (∀ (v : JSValue) (d : JsDate), jsDateParse (jsToString v) = some d →
        (formatDateValue v).formattedValue = some (.str (dateToIsoDatePart d)))
    ∧ formatFieldValues [("Due Date", exampleDateField)]
        [("Due Date", .str "not-a-date")] =
      (false, [],
       [("Due Date", "Invalid date value: not-a-date. Use format YYYY-MM-DD")]) :=
  ⟨by rfl, by rfl, formatDateValue_success_iff, formatDateValue_formatted, by rfl⟩

/-- Witness for C6 (amended): the successful parse of `"2024-01-15"`
re-emitted through the ISO date prefix. -/
theorem C6_date_formatter_amended_witness :
    (formatDateValue (.str "2024-01-15")).formattedValue =
      some (.str (dateToIsoDatePart { year := 2024, month := 1, day := 15 })) :=
  C6_date_formatter_amended.2.2.2.1 (.str "2024-01-15")
    { year := 2024, month := 1, day := 15 } (by decide)

/-- Counterexample to C7 as stated: validating `{value: "Critical"}` against
the `High`/`Low` enumeration fails, but the result carries *no* suggestions —
both candidates are outside the edit-distance bound, so they are not
returned as suggestions. -/
theorem C7_counterexample_no_suggestions :
    (validateFieldValue exampleOptionField (.obj [("value", .str "Critical")])).valid = false
    ∧ (validateFieldValue exampleOptionField
        (.obj [("value", .str "Critical")])).suggestions = none :=
  ⟨by decide, by decide⟩

/-- **C7 (amended)**: validating `{value: "high"}` against allowed values
`[{id:"1",name:"High"},{id:"2",name:"Low"}]` succeeds case-insensitively;
validating `{value: "Critical"}` fails and returns the full allowed-value
list, but no suggestions: the distances 7 (`"critical"`/`"high"`) and 8
(`"critical"`/`"low"`) both exceed the bound `max(3, ceil(8 * 0.5)) = 4`. -/
theorem C7_validator_acceptance_amended :
    (validateFieldValue exampleOptionField (.obj [("value", .str "high")])).valid = true
    ∧ (validateFieldValue exampleOptionField
        (.obj [("value", .str "Critical")])).valid = false
    ∧ (validateFieldValue exampleOptionField
        (.obj [("value", .str "Critical")])).error =
        some "Invalid value \"Critical\" for field \"Severity\""
    ∧ (validateFieldValue exampleOptionField
        (.obj [("value", .str "Critical")])).allowedValues =
        some [{ id := "1", name := "High" }, { id := "2", name := "Low" }]
    ∧ (validateFieldValue exampleOptionField
        (.obj [("value", .str "Critical")])).suggestions = none
    ∧ levenshteinDistance "critical" "high" = 7
    ∧ levenshteinDistance "critical" "low" = 8
    ∧ Nat.max 3 (("Critical".length + 1) / 2) = 4
    ∧ findSimilarValues "Critical"
        [{ id := "1", name := "High" }, { id := "2", name := "Low" }] 3 = [] :=
  ⟨by decide, by decide, by decide, by decide, by decide, by decide, by decide,
   by decide, by decide⟩

/-! ## Lemmas about batch resolution -/

/-- `Map.set` with a different key preserves lookups. -/
theorem jsMapSet_lookup_ne {α : Type} (l : List (String × α)) (k k' : String)
    (v : α) (h : k' ≠ k) : (jsMapSet l k v).lookup k' = l.lookup k' := by
  induction l with
  | nil => simp [jsMapSet, List.lookup, beq_false_of_ne h]
  | cons p rest ih =>
    obtain ⟨k0, v0⟩ := p
    by_cases h0 : k0 = k
    · subst h0
      simp [jsMapSet, List.lookup, beq_false_of_ne h]
    · by_cases h1 : k' = k0
      · subst h1
        simp [jsMapSet, h0, List.lookup]
      · simp [jsMapSet, h0, List.lookup, beq_false_of_ne h1, ih]

/-- `Map.set` preserves the presence of any binding. -/
theorem jsMapSet_lookup_isSome {α : Type} (l : List (String × α)) (k k' : String)
    (v : α) (h : (l.lookup k').isSome) : ((jsMapSet l k v).lookup k').isSome := by
  by_cases he : k' = k
  · subst he
    rw [jsMapSet_lookup_self]
    rfl
  · rw [jsMapSet_lookup_ne l k k' v he]
    exact h

/-- Once a name is present in the resolved accumulator it stays present. -/
theorem resolveFieldNamesLoop_resolved_mono
    (g : String → Except String CreateMeta) (projectKey issueType : String)
    (names : List String) :
    ∀ (resolved : List (String × ResolvedField)) (errors : List ResolutionError)
      (cache : MetadataCache) (n : String),
    (resolved.lookup n).isSome →
    (((resolveFieldNamesLoop g projectKey issueType names resolved errors cache).1).lookup n).isSome := by
  induction names with
  | nil =>
    intro resolved errors cache n h
    simpa [resolveFieldNamesLoop] using h
  | cons name rest ih =>
    intro resolved errors cache n h
    simp only [resolveFieldNamesLoop]
    cases hs : (resolveFieldName g cache projectKey issueType name).1.success with
    | true =>
      cases hres : (resolveFieldName g cache projectKey issueType name).1.resolved with
      | some rf =>
        simp only [hs, hres]
        exact ih _ _ _ n (jsMapSet_lookup_isSome _ _ _ _ h)
      | none =>
        simp only [hs, hres]
        exact ih _ _ _ n h
    | false =>
      simp only [hs]
      exact ih _ _ _ n h

/-- Errors already collected are kept by the rest of the loop. -/
theorem resolveFieldNamesLoop_errors_mono
    (g : String → Except String CreateMeta) (projectKey issueType : String)
    (names : List String) :
    ∀ (resolved : List (String × ResolvedField)) (errors : List ResolutionError)
      (cache : MetadataCache) (e : ResolutionError),
    e ∈ errors →
    e ∈ (resolveFieldNamesLoop g projectKey issueType names resolved errors cache).2.1 := by
  induction names with
  | nil =>
    intro resolved errors cache e h
    simpa [resolveFieldNamesLoop] using h
  | cons name rest ih =>
    intro resolved errors cache e h
    simp only [resolveFieldNamesLoop]
    cases hs : (resolveFieldName g cache projectKey issueType name).1.success with
    | true =>
      cases hres : (resolveFieldName g cache projectKey issueType name).1.resolved with
      | some rf =>
        simp only [hs, hres]
        exact ih _ _ _ e h
      | none =>
        simp only [hs, hres]
        exact ih _ _ _ e (List.mem_append_left _ h)
    | false =>
      simp only [hs]
      exact ih _ _ _ e (List.mem_append_left _ h)

/-- Every processed name ends up either in the resolved map or among the
errors: the loop never stops early. -/
theorem resolveFieldNamesLoop_coverage
    (g : String → Except String CreateMeta) (projectKey issueType : String)
    (names : List String) :
    ∀ (resolved : List (String × ResolvedField)) (errors : List ResolutionError)
      (cache : MetadataCache) (n : String), n ∈ names →
    ((((resolveFieldNamesLoop g projectKey issueType names resolved errors cache).1).lookup n).isSome = true)
    ∨ ∃ e ∈ (resolveFieldNamesLoop g projectKey issueType names resolved errors cache).2.1,
        e.name = n := by
  induction names with
  | nil =>
    intro resolved errors cache n h
    exact absurd h (List.not_mem_nil n)
  | cons name rest ih =>
    intro resolved errors cache n hn
    rcases List.mem_cons.mp hn with rfl | hmem
    · simp only [resolveFieldNamesLoop]
      cases hs : (resolveFieldName g cache projectKey issueType n).1.success with
      | true =>
        cases hres : (resolveFieldName g cache projectKey issueType n).1.resolved with
        | some rf =>
          simp only [hs, hres]
          left
          apply resolveFieldNamesLoop_resolved_mono
          rw [jsMapSet_lookup_self]
          rfl
        | none =>
          simp only [hs, hres]
          right
          refine ⟨_, resolveFieldNamesLoop_errors_mono g projectKey issueType rest _ _ _ _
            (List.mem_append_right errors (List.mem_singleton_self _)), rfl⟩
      | false =>
        simp only [hs]
        right
        refine ⟨_, resolveFieldNamesLoop_errors_mono g projectKey issueType rest _ _ _ _
          (List.mem_append_right errors (List.mem_singleton_self _)), rfl⟩
    · simp only [resolveFieldNamesLoop]
      cases hs : (resolveFieldName g cache projectKey issueType name).1.success with
      | true =>
        cases hres : (resolveFieldName g cache projectKey issueType name).1.resolved with
        | some rf => simp only [hs, hres]; exact ih _ _ _ n hmem
        | none => simp only [hs, hres]; exact ih _ _ _ n hmem
      | false =>
        simp only [hs]
        exact ih _ _ _ n hmem

/-- Every collected error stems from one of the processed names. -/
theorem resolveFieldNamesLoop_errors_from
    (g : String → Except String CreateMeta) (projectKey issueType : String)
    (names : List String) :
    ∀ (resolved : List (String × ResolvedField)) (errors : List ResolutionError)
      (cache : MetadataCache) (e : ResolutionError),
    e ∈ (resolveFieldNamesLoop g projectKey issueType names resolved errors cache).2.1 →
    e ∈ errors ∨ e.name ∈ names := by
  induction names with
  | nil =>
    intro resolved errors cache e h
    exact Or.inl (by simpa [resolveFieldNamesLoop] using h)
  | cons name rest ih =>
    intro resolved errors cache e h
    simp only [resolveFieldNamesLoop] at h
    cases hs : (resolveFieldName g cache projectKey issueType name).1.success with
    | true =>
      cases hres : (resolveFieldName g cache projectKey issueType name).1.resolved with
      | some rf =>
        simp only [hs, hres] at h
        rcases ih _ _ _ e h with h1 | h2
        · exact Or.inl h1
        · exact Or.inr (List.mem_cons_of_mem _ h2)
      | none =>
        simp only [hs, hres] at h
        rcases ih _ _ _ e h with h1 | h2
        · rcases List.mem_append.mp h1 with h3 | h4
          · exact Or.inl h3
          · rw [List.mem_singleton.mp h4]
            exact Or.inr (List.mem_cons_self _ _)
        · exact Or.inr (List.mem_cons_of_mem _ h2)
    | false =>
      simp only [hs] at h
      rcases ih _ _ _ e h with h1 | h2
      · rcases List.mem_append.mp h1 with h3 | h4
        · exact Or.inl h3
        · rw [List.mem_singleton.mp h4]
          exact Or.inr (List.mem_cons_self _ _)
      · exact Or.inr (List.mem_cons_of_mem _ h2)

/-- A provider serving two fields (`Summary`, `Severity`), for the batch
resolution example. -/
def exampleGetCreateMetaFull : String → Except String CreateMeta :=
  fun _ => .ok
    { projects :=
        [{ key := "PROJ",
           issuetypes :=
             [{ name := "Task",
                fields :=
                  [("summary",
                    { required := true, name := "Summary", key := "summary",
                      schema := { type := "string" } }),
                   ("customfield_10269",
                    { required := false, name := "Severity",
                      key := "customfield_10269",
                      schema := { type := "option" } })] }] }] }

/-- **C8**: batch resolution processes every name — each input name ends up
either in the resolved map or in the error list (no short-circuit on
failure), and every error stems from an input name.  Concretely, resolving
`["Sevrity", "Summary", "zzz"]` resolves `"Summary"` even though the first
name failed, and yields one error per failing name, each carrying its own
suggestions when any exist (`["Severity"]` for `"Sevrity"`, none for
`"zzz"`). -/
theorem C8_batch_resolution_partition :
    (∀ (g : String → Except String CreateMeta) (cache : MetadataCache)
        (projectKey issueType : String) (names : List String) (n : String),
        n ∈ names →
        ((((resolveFieldNames g cache projectKey issueType names).1).lookup n).isSome = true)
        ∨ ∃ e ∈ (resolveFieldNames g cache projectKey issueType names).2.1, e.name = n)
    ∧ (∀ (g : String → Except String CreateMeta) (cache : MetadataCache)
          (projectKey issueType : String) (names : List String) (e : ResolutionError),
        e ∈ (resolveFieldNames g cache projectKey issueType names).2.1 →
        e.name ∈ names)
    ∧ (resolveFieldNames exampleGetCreateMetaFull [] "PROJ" "Task"
        ["Sevrity", "Summary", "zzz"]).2.1 =
      [{ name := "Sevrity",
         error := "Field \x27Sevrity\x27 not found in project PROJ for issue type \x27Task\x27",
         suggestions := some ["Severity"] },
       { name := "zzz",
         error := "Field \x27zzz\x27 not found in project PROJ for issue type \x27Task\x27",
         suggestions := none }]
    ∧ (((resolveFieldNames exampleGetCreateMetaFull [] "PROJ" "Task"
        ["Sevrity", "Summary", "zzz"]).1).lookup "Summary").isSome = true := by
  refine ⟨?_, ?_, by decide, by decide⟩
  · intro g cache projectKey issueType names n hn
    exact resolveFieldNamesLoop_coverage g projectKey issueType names [] [] cache n hn
  · intro g cache projectKey issueType names e he
    rcases resolveFieldNamesLoop_errors_from g projectKey issueType names [] [] cache e he
      with h | h
    · exact absurd h (List.not_mem_nil e)
    · exact h

/-- Witness for C8: the coverage property applied to the name `"Summary"`
in the example batch. -/
theorem C8_batch_resolution_partition_witness :
    ((((resolveFieldNames exampleGetCreateMetaFull [] "PROJ" "Task"
        ["Sevrity", "Summary", "zzz"]).1).lookup "Summary").isSome = true)
    ∨ ∃ e ∈ (resolveFieldNames exampleGetCreateMetaFull [] "PROJ" "Task"
        ["Sevrity", "Summary", "zzz"]).2.1, e.name = "Summary" :=
  C8_batch_resolution_partition.1 exampleGetCreateMetaFull [] "PROJ" "Task"
    ["Sevrity", "Summary", "zzz"] "Summary" (by decide)

/-! ## Lemmas about formatter totality -/

/-- The option formatter always succeeds. -/
theorem formatOptionValue_success (value : JSValue) (field : ResolvedField) :
    (formatOptionValue value field).success = true := by
  simp only [formatOptionValue]
  split
  · rfl
  · split <;> rfl

/-- The array formatter always succeeds. -/
theorem formatArrayValue_success (value : JSValue) (field : ResolvedField) :
    (formatArrayValue value field).success = true := by
  simp only [formatArrayValue]
  split
  · rfl
  · split
    · rfl
    · split
      · rfl
      · rfl

/-- The user formatter always succeeds. -/
theorem formatUserValue_success (value : JSValue) (field : ResolvedField) :
    (formatUserValue value field).success = true := by
  simp only [formatUserValue]
  split <;> rfl

/-- The priority formatter always succeeds. -/
theorem formatPriorityValue_success (value : JSValue) (field : ResolvedField) :
    (formatPriorityValue value field).success = true := by
  simp only [formatPriorityValue]
  split
  · rfl
  · split <;> rfl

/-- The version/component/resolution formatter always succeeds. -/
theorem formatNamedObjectValue_success (value : JSValue) (field : ResolvedField)
    (objectType : String) :
    (formatNamedObjectValue value field objectType).success = true := by
  simp only [formatNamedObjectValue]
  split <;> rfl

/-- The dispatch of `formatFieldValue` either succeeds outright or has
reached one of the number/date/datetime branches — which requires the schema
type to be one of those three and the key to be none of the specially
dispatched ones. -/
theorem formatFieldValue_success_or (field : ResolvedField) (value : JSValue) :
    (formatFieldValue field value).success = true
    ∨ (field.metadata.schema.type ∈ (["number", "date", "datetime"] : List String)
       ∧ field.key ∉
          (["priority", "resolution", "fixVersions", "versions", "components"] : List String)) := by
  simp only [formatFieldValue]
  by_cases c1 : field.metadata.schema.type = "array"
  · rw [if_pos c1]
    exact Or.inl (formatArrayValue_success ..)
  rw [if_neg c1]
  by_cases c2 : field.metadata.schema.type = "option"
  · rw [if_pos c2]
    exact Or.inl (formatOptionValue_success ..)
  rw [if_neg c2]
  by_cases c3 : field.metadata.schema.type = "user"
  · rw [if_pos c3]
    exact Or.inl (formatUserValue_success ..)
  rw [if_neg c3]
  by_cases c4 : field.metadata.schema.type = "priority" ∨ field.key = "priority"
  · rw [if_pos c4]
    exact Or.inl (formatPriorityValue_success ..)
  rw [if_neg c4]
  by_cases c5 : field.metadata.schema.type = "resolution" ∨ field.key = "resolution"
  · rw [if_pos c5]
    exact Or.inl (formatNamedObjectValue_success ..)
  rw [if_neg c5]
  by_cases c6 : field.metadata.schema.type = "version" ∨ field.key = "fixVersions"
      ∨ field.key = "versions"
  · rw [if_pos c6]
    exact Or.inl (formatNamedObjectValue_success ..)
  rw [if_neg c6]
  by_cases c7 : field.metadata.schema.type = "component" ∨ field.key = "components"
  · rw [if_pos c7]
    exact Or.inl (formatNamedObjectValue_success ..)
  rw [if_neg c7]
  simp only [not_or] at c4 c5 c6 c7
  have hkey : field.key ∉
      (["priority", "resolution", "fixVersions", "versions", "components"] : List String) := by
    simp only [List.mem_cons, List.not_mem_nil, or_false, not_or]
    exact ⟨c4.2, c5.2, c6.2.1, c6.2.2, c7.2⟩
  by_cases c8 : field.metadata.schema.type = "number"
  · rw [if_pos c8]
    exact Or.inr ⟨by simp [c8], hkey⟩
  rw [if_neg c8]
  by_cases c9 : field.metadata.schema.type = "date"
  · rw [if_pos c9]
    exact Or.inr ⟨by simp [c9], hkey⟩
  rw [if_neg c9]
  by_cases c10 : field.metadata.schema.type = "datetime"
  · rw [if_pos c10]
    exact Or.inr ⟨by simp [c10], hkey⟩
  rw [if_neg c10]
  cases hcu : field.metadata.schema.custom with
  | none => exact Or.inl rfl
  | some custom =>
    simp only
    by_cases d0 : custom = ""
    · rw [if_pos d0]
      exact Or.inl rfl
    rw [if_neg d0]
    by_cases d1 : (strIncludes custom "select" || strIncludes custom "radiobuttons") = true
    · rw [if_pos d1]
      exact Or.inl (formatOptionValue_success ..)
    rw [if_neg d1]
    by_cases d2 : (strIncludes custom "multiselect" || strIncludes custom "multicheckboxes") = true
    · rw [if_pos d2]
      exact Or.inl (formatArrayValue_success ..)
    rw [if_neg d2]
    by_cases d3 : strIncludes custom "userpicker" = true
    · rw [if_pos d3]
      exact Or.inl (formatUserValue_success ..)
    rw [if_neg d3]
    by_cases d4 : strIncludes custom "multiuserpicker" = true
    · rw [if_pos d4]
      exact Or.inl (formatArrayValue_success ..)
    rw [if_neg d4]
    by_cases d5 : strIncludes custom "cascadingselect" = true
    · rw [if_pos d5]
      exact Or.inl rfl
    rw [if_neg d5]
    exact Or.inl rfl

/-- An option-typed field is dispatched to the option formatter. -/
theorem formatFieldValue_option (field : ResolvedField) (value : JSValue)
    (ht : field.metadata.schema.type = "option") :
    formatFieldValue field value = formatOptionValue value field := by
  simp only [formatFieldValue]
  rw [if_neg (by simp [ht]), if_pos ht]

/-- On the option branch, a raw value matching no allowed value still
formats successfully as a `{value: <raw string>}` wrapper (rejection is
deferred to validation). -/
theorem formatOptionValue_no_match (field : ResolvedField) (value : JSValue)
    (hf : isAlreadyFormatted value = false)
    (hm : findMatchingAllowedValue (jsToString value) field.metadata.allowedValues = none) :
    formatOptionValue value field =
      { success := true,
        formattedValue := some (.obj [("value", .str (jsToString value))]),
        originalValue := value,
        formatDescription := some ("\x7b\"value\": \"" ++ jsToString value ++ "\"\x7d") } := by
  simp only [formatOptionValue, hf, hm]
  simp

/-- **C9**: every dispatch that does not reach the number, date, or datetime
branch formats successfully; a formatting failure can only come from a
number/date/datetime-typed field whose key is not one of the specially
dispatched ones; and an option-typed value matching no allowed value is
still formatted successfully as `{value: <raw string>}`. -/
theorem C9_formatting_totality :
    (∀ (field : ResolvedField) (value : JSValue),
        field.metadata.schema.type ∉ (["number", "date", "datetime"] : List String) →
        (formatFieldValue field value).success = true)
    ∧ (∀ (field : ResolvedField) (value : JSValue),
        (formatFieldValue field value).success = false →
        field.metadata.schema.type ∈ (["number", "date", "datetime"] : List String)
        ∧ field.key ∉
            (["priority", "resolution", "fixVersions", "versions", "components"] : List String))
    ∧ (∀ (field : ResolvedField) (value : JSValue),
        field.metadata.schema.type = "option" →
        isAlreadyFormatted value = false →
        findMatchingAllowedValue (jsToString value) field.metadata.allowedValues = none →
        (formatFieldValue field value).success = true
        ∧ (formatFieldValue field value).formattedValue =
            some (.obj [("value", .str (jsToString value))])) := by
  refine ⟨?_, ?_, ?_⟩
  · intro field value h
    rcases formatFieldValue_success_or field value with hs | hr
    · exact hs
    · exact absurd hr.1 h
  · intro field value hfail
    rcases formatFieldValue_success_or field value with hs | hr
    · rw [hs] at hfail
      exact absurd hfail (by simp)
    · exact hr
  · intro field value ht hf hm
    rw [formatFieldValue_option field value ht, formatOptionValue_no_match field value hf hm]
    exact ⟨rfl, rfl⟩

/-- Witness for C9: the option field formats the unmatched raw value
`"Critical"` successfully as `{value: "Critical"}`. -/
theorem C9_formatting_totality_witness :
    (formatFieldValue exampleOptionField (.str "Critical")).success = true
    ∧ (formatFieldValue exampleOptionField (.str "Critical")).formattedValue =
        some (.obj [("value", .str (jsToString (.str "Critical")))]) :=
  C9_formatting_totality.2.2 exampleOptionField (.str "Critical") rfl rfl (by decide)

/-! ## Lemmas about batch validation -/

/-- The batch verdict is the conjunction over all pairs, an unresolved name
contributing `true`. -/
theorem validateFieldValuesLoop_valid (resolvedFields : List (String × ResolvedField)) :
    ∀ (pairs : List (String × JSValue)) (results : List (String × ValueValidationResult))
      (acc : Bool),
    (validateFieldValuesLoop resolvedFields pairs results acc).1 =
      (acc && pairs.all (fun p =>
        match resolvedFields.lookup p.1 with
        | none => true
        | some f => (validateFieldValue f p.2).valid)) := by
  intro pairs
  induction pairs with
  | nil => intro results acc; simp [validateFieldValuesLoop]
  | cons p rest ih =>
    intro results acc
    obtain ⟨name, value⟩ := p
    simp only [validateFieldValuesLoop]
    cases hl : resolvedFields.lookup name with
    | none =>
      simp only [hl]
      rw [ih]
      simp [List.all_cons, hl]
    | some f =>
      simp only [hl]
      rw [ih]
      simp [List.all_cons, hl, Bool.and_assoc]

/-- Names not among the pairs keep their prior result binding. -/
theorem validateFieldValuesLoop_lookup_preserved
    (resolvedFields : List (String × ResolvedField)) (name : String) :
    ∀ (pairs : List (String × JSValue))
      (results : List (String × ValueValidationResult)) (acc : Bool),
    name ∉ pairs.map Prod.fst →
    ((validateFieldValuesLoop resolvedFields pairs results acc).2).lookup name =
      results.lookup name := by
  intro pairs
  induction pairs with
  | nil => intro results acc _; simp [validateFieldValuesLoop]
  | cons p rest ih =>
    intro results acc h
    obtain ⟨n0, v0⟩ := p
    have hne : name ≠ n0 := by
      intro he
      exact h (by simp [he])
    have hrest : name ∉ rest.map Prod.fst := fun hm => h (by simp [hm])
    simp only [validateFieldValuesLoop]
    cases hl : resolvedFields.lookup n0 with
    | none =>
      simp only [hl]
      rw [ih _ _ hrest, jsMapSet_lookup_ne _ _ _ _ hne]
    | some f =>
      simp only [hl]
      rw [ih _ _ hrest, jsMapSet_lookup_ne _ _ _ _ hne]

/-- An unresolved pair is reported valid with one of its values passed
through unchanged. -/
theorem validateFieldValuesLoop_unresolved
    (resolvedFields : List (String × ResolvedField)) (name : String)
    (hf : resolvedFields.lookup name = none) :
    ∀ (pairs : List (String × JSValue))
      (results : List (String × ValueValidationResult)) (acc : Bool)
      (value : JSValue),
    (name, value) ∈ pairs →
    ∃ v, ((validateFieldValuesLoop resolvedFields pairs results acc).2).lookup name =
        some { valid := true, normalizedValue := some v }
      ∧ (name, v) ∈ pairs := by
  intro pairs
  induction pairs with
  | nil => intro results acc value h; exact absurd h (List.not_mem_nil _)
  | cons p rest ih =>
    intro results acc value hmem
    obtain ⟨n0, v0⟩ := p
    rcases List.mem_cons.mp hmem with heq | hmem2
    · obtain ⟨h1, h2⟩ := Prod.mk.injEq .. ▸ heq
      subst h1
      subst h2
      simp only [validateFieldValuesLoop, hf]
      by_cases hrest : name ∈ rest.map Prod.fst
      · obtain ⟨q, hq, hq1⟩ := List.mem_map.mp hrest
        obtain ⟨qn, qv⟩ := q
        simp only at hq1
        subst hq1
        obtain ⟨v, hv1, hv2⟩ := ih _ _ qv hq
        exact ⟨v, hv1, List.mem_cons_of_mem _ hv2⟩
      · rw [validateFieldValuesLoop_lookup_preserved resolvedFields name rest _ _ hrest,
          jsMapSet_lookup_self]
        exact ⟨value, rfl, List.mem_cons_self _ _⟩
    · simp only [validateFieldValuesLoop]
      cases hl : resolvedFields.lookup n0 with
      | none =>
        simp only [hl]
        obtain ⟨v, hv1, hv2⟩ := ih _ _ value hmem2
        exact ⟨v, hv1, List.mem_cons_of_mem _ hv2⟩
      | some f =>
        simp only [hl]
        obtain ⟨v, hv1, hv2⟩ := ih _ _ value hmem2
        exact ⟨v, hv1, List.mem_cons_of_mem _ hv2⟩

/-- **C10**: a pair whose name has no entry in the resolved-field map is
skipped by validation — it is reported valid with its value passed through —
and such pairs never make the batch verdict invalid: the verdict is the
conjunction of the verdicts of the resolvable pairs only. -/
theorem C10_batch_validation_skip :
    (∀ (resolvedFields : List (String × ResolvedField))
        (fieldPairs : List (String × JSValue)),
        (validateFieldValues resolvedFields fieldPairs).1 =
          fieldPairs.all (fun p =>
            match resolvedFields.lookup p.1 with
            | none => true
            | some f => (validateFieldValue f p.2).valid))
    ∧ (∀ (resolvedFields : List (String × ResolvedField))
          (fieldPairs : List (String × JSValue)) (name : String) (value : JSValue),
        (name, value) ∈ fieldPairs →
        resolvedFields.lookup name = none →
        ∃ v, ((validateFieldValues resolvedFields fieldPairs).2).lookup name =
            some { valid := true, normalizedValue := some v }
          ∧ (name, v) ∈ fieldPairs) := by
  constructor
  · intro resolvedFields fieldPairs
    rw [validateFieldValues, validateFieldValuesLoop_valid]
    simp
  · intro resolvedFields fieldPairs name value hmem hf
    exact validateFieldValuesLoop_unresolved resolvedFields name hf fieldPairs [] true
      value hmem

/-- Witness for C10: the unresolved name `"X"` passes through as valid. -/
theorem C10_batch_validation_skip_witness :
    ∃ v, ((validateFieldValues [] [("X", JSValue.str "v")]).2).lookup "X" =
        some { valid := true, normalizedValue := some v }
      ∧ ("X", v) ∈ [("X", JSValue.str "v")] :=
  C10_batch_validation_skip.2 [] [("X", .str "v")] "X" (.str "v")
    (List.mem_singleton.mpr rfl) rfl

end AgentTools
